import Mathlib

/-!
# meli-product-api: product aggregation, verified over a shallow embedding

The Go sources embedded here are

* `internal/domain/model` (the records),
* `internal/domain/port` (the collaborator interfaces),
* `internal/infrastructure/adapter/repository/json` (the file-backed stores),
* `internal/application/service/product_aggregator.go` (the orchestrator),
* `internal/application/service/product_search.go` (the search service),
* `internal/infrastructure/adapter/http/dto/search_response.go`,
* `internal/infrastructure/adapter/http/handler/product_handler.go`,
* `internal/infrastructure/router/router.go`.

Conventions of the embedding.

* A finite Go `float64` is the rational number it denotes. Comparisons are exact;
  every arithmetic operation, conversion from `int` and conversion of a constant
  rounds its exact result to the nearest binary64 value, ties to even
  (`roundFloat64`). Infinities and NaN do not arise: the values come from JSON
  numbers, and the products and quotients computed here stay in range.
* A Go `int` is an `Int`; where the source does arithmetic on it the result is
  wrapped to the signed 64-bit range by `wrapInt64`.
* A Go `string` is a `String`, compared with `=`.
* A slice is a `List`; the `nil` slice and the empty slice are both `[]`.
* A pointer is an `Option`; `nil` is `none`.
* A Go call returning `(T, error)` is a pair: both components are kept, since
  the source sometimes reads the value without looking at the error.
* A run-time panic (nil dereference, slice out of range) is `Run.panicked`.
* Logging is not modelled: it never feeds back into control flow.
* The four goroutines of `GetProductDetails` write disjoint fields of one
  struct under a mutex and are joined by a `sync.WaitGroup`; an execution is
  modelled by the order `sched` in which they run, and statements about
  `GetProductDetails` hold for every ordering of the four.
-/

set_option autoImplicit false
set_option linter.dupNamespace false

/-! ## Go run-time notions -/

/-- Go `error` values that occur in the program: the package-level sentinel
`service.ErrProductNotFound`, and any other value made by `errors.New`.
The sentinel is kept apart because callers compare it by identity. -/
inductive GoErr where
  | ErrProductNotFound
  | New (msg : String)
  deriving DecidableEq, Repr

/-- The Go `error` interface: `none` is `nil`. -/
abbrev GoError := Option GoErr

/-- Outcome of running a piece of Go code that may panic. -/
inductive Run (α : Type) where
  | done (value : α)
  | panicked
  deriving DecidableEq, Repr

/-- Wrap an integer into the range of a signed 64-bit Go `int`. -/
def wrapInt64 (x : Int) : Int :=
  (x + 9223372036854775808) % 18446744073709551616 - 9223372036854775808

/-- Go `len` of a slice, as an `int`. -/
def len {α : Type} (xs : List α) : Int := (xs.length : Int)

/-! ## Go `float64` (IEEE 754 binary64) -/

/-- Round a rational to the nearest integer, a tie going to the even one. -/
def roundHalfEven (y : ℚ) : Int :=
  let f := ⌊y⌋
  if y - f < 1 / 2 then f
  else if 1 / 2 < y - f then f + 1
  else if f % 2 = 0 then f else f + 1

/-- Round a rational to the nearest binary64 value, ties to even. With `e` the
binary exponent of `x` (at least `-1022`, below which values are subnormal),
the binary64 values around `x` are the multiples of `2 ^ (e - 52)`. Overflow to
infinity (from `2 ^ 1024` on) is outside the model. -/
def roundFloat64 (x : ℚ) : ℚ :=
  if x = 0 then 0
  else
    let e := max (Int.log 2 |x|) (-1022)
    let q : ℚ := (2 : ℚ) ^ (e - 52)
    (roundHalfEven (x / q) : ℚ) * q

/-- Go conversion of a numeric constant to `float64`. -/
def float64Const (c : ℚ) : ℚ := roundFloat64 c

/-- Go conversion `float64(i)` of an `int`. -/
def float64OfInt (i : Int) : ℚ := roundFloat64 (i : ℚ)

/-- Go `a * b` on `float64`. -/
def float64Mul (a b : ℚ) : ℚ := roundFloat64 (a * b)

/-- Go `a / b` on `float64`, for a non-zero `b`. -/
def float64Div (a b : ℚ) : ℚ := roundFloat64 (a / b)

/-! ## `internal/domain/model` -/

namespace model

/-- Go `model.Attribute`. -/
structure Attribute where
  Name : String
  Value : String
  deriving DecidableEq, Repr

/-- Go `model.Product`; `CreatedAt` and `UpdatedAt` are abstract instants. -/
structure Product where
  ID : String
  Title : String
  Description : String
  Price : ℚ
  OriginalPrice : Option ℚ
  DiscountPercent : Option Int
  Condition : String
  AvailableQuantity : Int
  SoldQuantity : Int
  Images : List String
  Category : String
  Attributes : List Attribute
  Brand : String
  Model : String
  CreatedAt : Int
  UpdatedAt : Int
  deriving DecidableEq, Repr

/-- Go `model.Seller`. -/
structure Seller where
  ID : String
  Nickname : String
  ReputationLevel : String
  TotalSales : Int
  ReputationScore : ℚ
  YearsActive : Int
  IsOfficialStore : Bool
  deriving DecidableEq, Repr

/-- Go `model.Review`. -/
structure Review where
  ID : String
  ProductID : String
  UserID : String
  UserName : String
  Rating : Int
  Title : String
  Comment : String
  CreatedAt : Int
  HelpfulCount : Int
  deriving DecidableEq, Repr

/-- Go `model.Question`. -/
structure Question where
  ID : String
  ProductID : String
  UserID : String
  UserName : String
  Question : String
  Answer : String
  QuestionDate : Int
  AnswerDate : Option Int
  Likes : Int
  deriving DecidableEq, Repr

/-- Go `model.Shipping`. -/
structure Shipping where
  FreeShipping : Bool
  ShippingMode : String
  Cost : ℚ
  EstimatedDelivery : String
  FullFulfillment : Bool
  PickupAvailable : String
  deriving DecidableEq, Repr

/-- Go `model.ProductDetails`, the aggregated view. -/
structure ProductDetails where
  Product : model.Product
  Seller : model.Seller
  Shipping : model.Shipping
  Reviews : List model.Review
  AverageRating : ℚ
  TotalReviews : Int
  Questions : List model.Question
  RelatedProducts : List model.Product
  deriving DecidableEq, Repr

end model

/-! ## `internal/domain/port` -/

namespace port

/-- Go interface `port.ProductRepository`. `Search` may panic in the file-backed
implementation (slice bounds), so its outcome is a `Run`. -/
structure ProductRepository where
  FindByID : String → Option model.Product × GoError
  Search : String → Int → Int → Run (List model.Product × GoError)
  Count : String → Int × GoError
  FindRelated : String → String → Int → List model.Product × GoError

/-- Go interface `port.SellerClient`. -/
structure SellerClient where
  GetByID : String → Option model.Seller × GoError

/-- Go interface `port.ReviewClient`. -/
structure ReviewClient where
  GetByProductID : String → List model.Review × GoError
  GetAverageRating : String → ℚ × GoError
  GetTotalCount : String → Int × GoError

/-- Go interface `port.QuestionClient`. -/
structure QuestionClient where
  GetByProductID : String → Int → List model.Question × GoError

end port

/-! ## Go `strings` -/

/-- Go `strings.Contains`: whether `substr` occurs in `s` as a contiguous run. -/
def stringsContains (s substr : String) : Bool :=
  decide (substr.data <:+: s.data)

/-! ## `internal/infrastructure/adapter/repository/json`

The repositories hold the slice that `load` unmarshals from the data file; the
locks and the simulated latency (`time.Sleep`) have no effect on results.
`strings.ToLower` is taken as a parameter `ToLower`. -/

namespace json

/-- Go `json.ProductRepository`: the loaded products, in file order. -/
structure ProductRepository where
  products : List model.Product

/-- Go `(*ProductRepository).FindByID`: the first product with the given id. -/
def ProductRepository.FindByID (r : ProductRepository) (id : String) :
    Option model.Product × GoError :=
  go r.products
where
  /-- The `for _, p := range r.products` loop with its early `return`. -/
  go : List model.Product → Option model.Product × GoError
    | [] => (none, some (GoErr.New "product not found"))
    | p :: rest => if p.ID = id then (some p, none) else go rest

/-- Go `(*ProductRepository).matches`. -/
def ProductRepository.matches (ToLower : String → String) (p : model.Product)
    (keyword : String) : Bool :=
  let title := ToLower p.Title
  let desc := ToLower p.Description
  let category := ToLower p.Category
  let brand := ToLower p.Brand
  stringsContains title keyword ||
    stringsContains desc keyword ||
    stringsContains category keyword ||
    stringsContains brand keyword

/-- Go `(*ProductRepository).Search`. The slice expression `results[start:end]`
panics unless `0 <= start <= end <= cap(results)`; `end` has been clamped to
`len(results)` before. -/
def ProductRepository.Search (ToLower : String → String) (r : ProductRepository)
    (keyword : String) (limit offset : Int) : Run (List model.Product × GoError) :=
  let keyword := ToLower keyword
  let results := r.products.foldl
    (fun results p => if ProductRepository.matches ToLower p keyword then results ++ [p] else results) []
  let start := offset
  let end_ := wrapInt64 (offset + limit)
  if start > len results then Run.done ([], none)
  else
    let end_ := if end_ > len results then len results else end_
    if 0 ≤ start ∧ start ≤ end_ then
      Run.done ((results.drop start.toNat).take (end_ - start).toNat, none)
    else Run.panicked

/-- Go `(*ProductRepository).Count`. -/
def ProductRepository.Count (ToLower : String → String) (r : ProductRepository)
    (keyword : String) : Int × GoError :=
  let keyword := ToLower keyword
  let count := r.products.foldl
    (fun count p => if ProductRepository.matches ToLower p keyword then wrapInt64 (count + 1) else count) 0
  (count, none)

/-- Go `(*ProductRepository).FindRelated`. -/
def ProductRepository.FindRelated (r : ProductRepository) (productID category : String)
    (limit : Int) : List model.Product × GoError :=
  (go r.products [], none)
where
  /-- The `for _, p := range r.products` loop with its `break`; the second
  argument is `results`. -/
  go : List model.Product → List model.Product → List model.Product
    | [], results => results
    | p :: rest, results =>
      if p.ID ≠ productID ∧ p.Category = category then
        let results := results ++ [p]
        if len results ≥ limit then results else go rest results
      else go rest results

/-- The file-backed product store seen through `port.ProductRepository`. -/
def ProductRepository.toPort (ToLower : String → String) (r : ProductRepository) :
    port.ProductRepository where
  FindByID := r.FindByID
  Search := r.Search ToLower
  Count := r.Count ToLower
  FindRelated := r.FindRelated

/-- Go `json.ReviewRepository`: the loaded reviews, in file order. -/
structure ReviewRepository where
  reviews : List model.Review

/-- Go `(*ReviewRepository).GetByProductID`. -/
def ReviewRepository.GetByProductID (r : ReviewRepository) (productID : String) :
    List model.Review × GoError :=
  let results := r.reviews.foldl
    (fun results review => if review.ProductID = productID then results ++ [review] else results) []
  (results, none)

/-- Go `(*ReviewRepository).GetAverageRating`: `sum` is a Go `int` and wraps;
the final division is `float64(sum) / float64(len(reviews))`, with the two
conversions and the quotient rounded to `float64`. -/
def ReviewRepository.GetAverageRating (r : ReviewRepository) (productID : String) :
    ℚ × GoError :=
  match r.GetByProductID productID with
  | (_, some err) => (0, some err)
  | (reviews, none) =>
    if len reviews = 0 then (0, none)
    else
      let sum := reviews.foldl (fun sum review => wrapInt64 (sum + review.Rating)) 0
      (float64Div (float64OfInt sum) (float64OfInt (len reviews)), none)

/-- Go `(*ReviewRepository).GetTotalCount`. -/
def ReviewRepository.GetTotalCount (r : ReviewRepository) (productID : String) :
    Int × GoError :=
  match r.GetByProductID productID with
  | (_, some err) => (0, some err)
  | (reviews, none) => (len reviews, none)

/-- The file-backed review store seen through `port.ReviewClient`. -/
def ReviewRepository.toPort (r : ReviewRepository) : port.ReviewClient where
  GetByProductID := r.GetByProductID
  GetAverageRating := r.GetAverageRating
  GetTotalCount := r.GetTotalCount

/-- Go `json.QuestionRepository`: the loaded questions, in file order. -/
structure QuestionRepository where
  questions : List model.Question

/-- Go `(*QuestionRepository).GetByProductID`. -/
def QuestionRepository.GetByProductID (r : QuestionRepository) (productID : String)
    (limit : Int) : List model.Question × GoError :=
  (go r.questions [] 0, none)
where
  /-- The `for _, question := range r.questions` loop with its `break`; the
  last two arguments are `results` and `count`. -/
  go : List model.Question → List model.Question → Int → List model.Question
    | [], results, _ => results
    | question :: rest, results, count =>
      if question.ProductID = productID then
        let results := results ++ [question]
        let count := wrapInt64 (count + 1)
        if count ≥ limit then results else go rest results count
      else go rest results count

/-- The file-backed question feed seen through `port.QuestionClient`. -/
def QuestionRepository.toPort (r : QuestionRepository) : port.QuestionClient where
  GetByProductID := r.GetByProductID

/-- Go `json.SellerRepository`: the map from seller id to seller. -/
structure SellerRepository where
  sellers : String → Option model.Seller

/-- Go `(*SellerRepository).load`, after unmarshalling: every seller of the file
is stored under its id, a later one replacing an earlier one. -/
def SellerRepository.load (sellers : List model.Seller) : SellerRepository where
  sellers := sellers.foldl (fun m s => fun k => if k = s.ID then some s else m k) (fun _ => none)

/-- Go `(*SellerRepository).GetByID`. -/
def SellerRepository.GetByID (r : SellerRepository) (sellerID : String) :
    Option model.Seller × GoError :=
  match r.sellers sellerID with
  | none => (none, some (GoErr.New "seller not found"))
  | some seller => (some seller, none)

/-- The file-backed seller store seen through `port.SellerClient`. -/
def SellerRepository.toPort (r : SellerRepository) : port.SellerClient where
  GetByID := r.GetByID

end json

/-! ## `internal/application/service/product_aggregator.go` -/

namespace service

/-- A call made on a collaborator, with its arguments. -/
inductive Call where
  | FindByID (id : String)
  | FindRelated (productID category : String) (limit : Int)
  | SellerGetByID (sellerID : String)
  | ReviewGetByProductID (productID : String)
  | ReviewGetAverageRating (productID : String)
  | ReviewGetTotalCount (productID : String)
  | QuestionGetByProductID (productID : String) (limit : Int)
  deriving DecidableEq, Repr

/-- Whether a call belongs to the fan-out: every call but `FindByID`. -/
def Call.isFanOut : Call → Bool
  | Call.FindByID _ => false
  | _ => true

/-- What running a service method gives: the collaborator calls it made, in the
order they were made, and its outcome. -/
structure Exec (α : Type) where
  calls : List Call
  outcome : Run α

/-- Go `service.ProductAggregatorService` (the logger is not modelled). -/
structure ProductAggregatorService where
  productRepo : port.ProductRepository
  sellerClient : port.SellerClient
  reviewClient : port.ReviewClient
  questionClient : port.QuestionClient

/-- The local `result` struct of `GetProductDetails`; its zero value is the
initial `res := result{}`. -/
structure result where
  seller : Option model.Seller := none
  reviews : List model.Review := []
  avgRating : ℚ := 0
  totalRevs : Int := 0
  questions : List model.Question := []
  related : List model.Product := []
  err : GoError := none
  deriving DecidableEq, Repr

/-- The four goroutines that `GetProductDetails` starts. -/
inductive Goroutine where
  | seller
  | reviews
  | questions
  | related
  deriving DecidableEq, Repr

/-- The goroutines in the order the source starts them. -/
def allGoroutines : List Goroutine :=
  [Goroutine.seller, Goroutine.reviews, Goroutine.questions, Goroutine.related]

/-- Go `(*ProductAggregatorService).fetchSeller`. On the success path the
source reads `seller.Nickname` for its log record, which panics on a `nil`
seller returned with a `nil` error. -/
def ProductAggregatorService.fetchSeller (s : ProductAggregatorService) (sellerID : String) :
    Exec (Option model.Seller × GoError) :=
  let calls := [Call.SellerGetByID sellerID]
  match s.sellerClient.GetByID sellerID with
  | (_, some err) =>
    ⟨calls, Run.done (some {
        ID := "default",
        Nickname := "Vendedor",
        ReputationLevel := "green",
        TotalSales := 0,
        ReputationScore := 0.0,
        YearsActive := 0,
        IsOfficialStore := false }, some err)⟩
  | (none, none) => ⟨calls, Run.panicked⟩
  | (some seller, none) => ⟨calls, Run.done (some seller, none)⟩

/-- Go `(*ProductAggregatorService).fetchReviews`: the three errors are
discarded (`_`) and the three values returned as they came. -/
def ProductAggregatorService.fetchReviews (s : ProductAggregatorService) (productID : String) :
    List Call × (List model.Review × ℚ × Int) :=
  let reviews := (s.reviewClient.GetByProductID productID).1
  let avgRating := (s.reviewClient.GetAverageRating productID).1
  let total := (s.reviewClient.GetTotalCount productID).1
  ([Call.ReviewGetByProductID productID, Call.ReviewGetAverageRating productID,
    Call.ReviewGetTotalCount productID], (reviews, avgRating, total))

/-- Go `(*ProductAggregatorService).fetchQuestions`: the error is discarded. -/
def ProductAggregatorService.fetchQuestions (s : ProductAggregatorService) (productID : String) :
    List Call × List model.Question :=
  let questions := (s.questionClient.GetByProductID productID 10).1
  ([Call.QuestionGetByProductID productID 10], questions)

/-- Go `(*ProductAggregatorService).fetchRelated`: the error is discarded. -/
def ProductAggregatorService.fetchRelated (s : ProductAggregatorService)
    (productID category : String) : List Call × List model.Product :=
  let related := (s.productRepo.FindRelated productID category 4).1
  ([Call.FindRelated productID category 4], related)

/-- Go `(*ProductAggregatorService).buildShipping`. -/
def ProductAggregatorService.buildShipping (_s : ProductAggregatorService)
    (product : model.Product) : model.Shipping :=
  let freeShipping : Bool := decide (product.Price > 50000)
  let cost : ℚ := float64Const 0.0
  let cost := if !freeShipping then float64Mul product.Price (float64Const 0.05) else cost
  { FreeShipping := freeShipping,
    ShippingMode := "standard",
    Cost := cost,
    EstimatedDelivery := "Llega en 3-5 días",
    FullFulfillment := false,
    PickupAvailable := "Si" }

/-- One goroutine of `GetProductDetails` run to completion: its fetch, then the
write of its own fields of `res` under the mutex. A panic in a goroutine takes
the process down, so nothing runs after it. -/
def ProductAggregatorService.runGoroutine (s : ProductAggregatorService)
    (product : model.Product) (productID : String)
    (st : List Call × Run result) (g : Goroutine) : List Call × Run result :=
  match st with
  | (calls, Run.panicked) => (calls, Run.panicked)
  | (calls, Run.done res) =>
    match g with
    | Goroutine.seller =>
      match s.fetchSeller product.ID with
      | ⟨cs, Run.panicked⟩ => (calls ++ cs, Run.panicked)
      | ⟨cs, Run.done (seller, _)⟩ => (calls ++ cs, Run.done { res with seller := seller })
    | Goroutine.reviews =>
      match s.fetchReviews productID with
      | (cs, (reviews, avg, total)) =>
        (calls ++ cs, Run.done { res with reviews := reviews, avgRating := avg, totalRevs := total })
    | Goroutine.questions =>
      match s.fetchQuestions productID with
      | (cs, questions) => (calls ++ cs, Run.done { res with questions := questions })
    | Goroutine.related =>
      match s.fetchRelated productID product.Category with
      | (cs, related) => (calls ++ cs, Run.done { res with related := related })

/-- Go `(*ProductAggregatorService).GetProductDetails`.

`sched` is the order in which the goroutines run their critical sections; the
`sync.WaitGroup` barrier means every real execution is some ordering of
`allGoroutines`. The value is the Go pair `(*model.ProductDetails, error)`.
A `nil` product returned with a `nil` error is dereferenced by the goroutines
(`product.ID`, `product.Category`) and panics. -/
def ProductAggregatorService.GetProductDetails (s : ProductAggregatorService)
    (sched : List Goroutine) (productID : String) :
    Exec (Option model.ProductDetails × GoError) :=
  match s.productRepo.FindByID productID with
  | (_, some _) => ⟨[Call.FindByID productID], Run.done (none, some GoErr.ErrProductNotFound)⟩
  | (none, none) => ⟨[Call.FindByID productID], Run.panicked⟩
  | (some product, none) =>
    match sched.foldl (s.runGoroutine product productID) ([Call.FindByID productID], Run.done {}) with
    | (calls, Run.panicked) => ⟨calls, Run.panicked⟩
    | (calls, Run.done res) =>
      let shipping := s.buildShipping product
      match res.seller with
      | none => ⟨calls, Run.panicked⟩
      | some seller =>
        ⟨calls, Run.done (some {
            Product := product,
            Seller := seller,
            Shipping := shipping,
            Reviews := res.reviews,
            AverageRating := res.avgRating,
            TotalReviews := res.totalRevs,
            Questions := res.questions,
            RelatedProducts := res.related }, none)⟩

end service

/-! ## `internal/application/service/product_search.go`

`strings.TrimSpace` and `strings.ToLower` are taken as parameters. -/

namespace service

/-- Go `service.ProductSearchService` (the logger is not modelled). -/
structure ProductSearchService where
  productRepo : port.ProductRepository

/-- Go `(*ProductSearchService).Search`; the value is the Go triple
`([]model.Product, int, error)`. -/
def ProductSearchService.Search (TrimSpace ToLower : String → String)
    (s : ProductSearchService) (query : String) (limit offset : Int) :
    Run (List model.Product × Int × GoError) :=
  let query := TrimSpace query
  if query = "" then Run.done ([], 0, none)
  else
    let query := ToLower query
    match s.productRepo.Count query with
    | (_, some err) => Run.done ([], 0, some err)
    | (total, none) =>
      if total = 0 then Run.done ([], 0, none)
      else
        match s.productRepo.Search query limit offset with
        | Run.panicked => Run.panicked
        | Run.done (_, some err) => Run.done ([], 0, some err)
        | Run.done (products, none) => Run.done (products, total, none)

end service

/-! ## `internal/infrastructure/adapter/http/dto/search_response.go` -/

namespace dto

/-- Go `dto.ProductSummaryDTO`. -/
structure ProductSummaryDTO where
  ID : String
  Title : String
  Price : ℚ
  OriginalPrice : Option ℚ
  DiscountPercent : Option Int
  Condition : String
  Thumbnail : String
  SoldQuantity : Int
  AvailableQuantity : Int
  Category : String
  Brand : String
  FreeShipping : Bool
  deriving DecidableEq, Repr

/-- Go `dto.ProductSearchResponse`. -/
structure ProductSearchResponse where
  Query : String
  TotalResults : Int
  Limit : Int
  Offset : Int
  Results : List ProductSummaryDTO
  deriving DecidableEq, Repr

/-- Go `dto.ToProductSearchResponse`. -/
def ToProductSearchResponse (query : String) (products : List model.Product)
    (total limit offset : Int) : ProductSearchResponse :=
  let summaries := products.map (fun p =>
    let thumbnail := ""
    let thumbnail := if len p.Images > 0 then p.Images.getD 0 "" else thumbnail
    let freeShipping : Bool := decide (p.Price > 50000)
    ({ ID := p.ID,
       Title := p.Title,
       Price := p.Price,
       OriginalPrice := p.OriginalPrice,
       DiscountPercent := p.DiscountPercent,
       Condition := p.Condition,
       Thumbnail := thumbnail,
       SoldQuantity := p.SoldQuantity,
       AvailableQuantity := p.AvailableQuantity,
       Category := p.Category,
       Brand := p.Brand,
       FreeShipping := freeShipping } : ProductSummaryDTO))
  { Query := query,
    TotalResults := total,
    Limit := limit,
    Offset := offset,
    Results := summaries }

end dto

/-! ## `internal/infrastructure/adapter/http/handler/product_handler.go`

Of the request only the parts the handler reads are kept. `strconv.Atoi` is
taken as a parameter `Atoi`, returning the Go pair `(int, error)`. -/

namespace handler

/-- The parts of `*http.Request` read by `SearchProducts`: the URL path and
`r.URL.Query().Get`, which is `""` for a missing parameter. -/
structure Request where
  path : String
  queryGet : String → String

/-- What a handler writes: the status code and the JSON body, which is either a
`dto.ErrorResponse` (of which the message and path are kept) or a
`dto.ProductSearchResponse`. -/
inductive Response where
  | error (status : Int) (message path : String)
  | search (status : Int) (body : dto.ProductSearchResponse)
  deriving DecidableEq, Repr

/-- A call a handler makes on one of its services, with its arguments. -/
inductive ServiceCall where
  | Search (query : String) (limit offset : Int)
  deriving DecidableEq, Repr

/-- What running a handler gives: the service calls it made and its response. -/
structure Handled where
  calls : List ServiceCall
  response : Run Response

/-- Go `handler.ProductHandler` (the logger is not modelled). -/
structure ProductHandler where
  aggregatorService : service.ProductAggregatorService
  searchService : service.ProductSearchService

/-- The block `// Parse and validate limit` of `SearchProducts`. -/
def ProductHandler.SearchProducts.limit (Atoi : String → Int × GoError) (limitStr : String) : Int :=
  let limit := 10
  if limitStr ≠ "" then
    match Atoi limitStr with
    | (limit, err) => if err ≠ none ∨ limit < 1 ∨ limit > 50 then 10 else limit
  else limit

/-- The block `// Parse and validate offset` of `SearchProducts`. -/
def ProductHandler.SearchProducts.offset (Atoi : String → Int × GoError) (offsetStr : String) : Int :=
  let offset := 0
  if offsetStr ≠ "" then
    match Atoi offsetStr with
    | (offset, err) => if err ≠ none ∨ offset < 0 then 0 else offset
  else offset

/-- Go `(*ProductHandler).SearchProducts`. -/
def ProductHandler.SearchProducts (TrimSpace ToLower : String → String)
    (Atoi : String → Int × GoError) (h : ProductHandler) (r : Request) : Handled :=
  let query := r.queryGet "q"
  let limitStr := r.queryGet "limit"
  let offsetStr := r.queryGet "offset"
  if TrimSpace query = "" then
    ⟨[], Run.done (Response.error 400 "Required parameter 'q' is missing" r.path)⟩
  else
    let limit := ProductHandler.SearchProducts.limit Atoi limitStr
    let offset := ProductHandler.SearchProducts.offset Atoi offsetStr
    let calls := [ServiceCall.Search query limit offset]
    match h.searchService.Search TrimSpace ToLower query limit offset with
    | Run.panicked => ⟨calls, Run.panicked⟩
    | Run.done (_, _, some _) =>
      ⟨calls, Run.done (Response.error 500 "Error searching products" r.path)⟩
    | Run.done (products, total, none) =>
      ⟨calls, Run.done (Response.search 200
        (dto.ToProductSearchResponse query products total limit offset))⟩

end handler

/-! ## `internal/infrastructure/router/router.go`

The router is a `gorilla/mux` router. Of that library the matching rules are
modelled: routes are tried in the order they were registered and the first
whose path template and method both match wins; a template is matched segment
by segment, a literal segment against an equal one and a variable `{name}`
against any non-empty segment. The routes of the `/api/v1` subrouter stand where
the subrouter was registered, with its prefix. Middleware wraps the handler of
the matched route and does not take part in the choice. -/

namespace router

/-- The handler methods that `NewRouter` registers. -/
inductive Handler where
  | GetProductDetails
  | SearchProducts
  | HealthCheck
  deriving DecidableEq, Repr

/-- A registered route: `HandleFunc(template, handler).Methods(methods...)`. -/
structure Route where
  template : String
  methods : List String
  handler : Handler
  deriving DecidableEq, Repr

/-- Split a path at every `/`. -/
def splitSlash : List Char → List (List Char)
  | [] => [[]]
  | c :: cs =>
    match splitSlash cs with
    | [] => [[]]
    | seg :: rest => if c = '/' then [] :: seg :: rest else (c :: seg) :: rest

/-- The name of the variable if the template segment is `{name}`. -/
def varName : List Char → Option String
  | '{' :: rest => if rest.getLast? = some '}' then some (String.mk rest.dropLast) else none
  | _ => none

/-- Match template segments against path segments, collecting the variables. -/
def matchSegments : List (List Char) → List (List Char) → Option (List (String × String))
  | [], [] => some []
  | t :: ts, seg :: segs =>
    match varName t with
    | some name =>
      if seg ≠ [] then (matchSegments ts segs).map (fun vars => (name, String.mk seg) :: vars)
      else none
    | none => if t = seg then matchSegments ts segs else none
  | _, _ => none

/-- Match a path template against a URL path. -/
def matchTemplate (template path : String) : Option (List (String × String)) :=
  matchSegments (splitSlash template.data) (splitSlash path.data)

/-- The handler that serves a request, with the route variables (`mux.Vars`):
the first registered route whose template and method match. -/
def dispatch : List Route → String → String → Option (Handler × List (String × String))
  | [], _, _ => none
  | route :: rest, method, path =>
    match matchTemplate route.template path with
    | some vars => if method ∈ route.methods then some (route.handler, vars)
                   else dispatch rest method path
    | none => dispatch rest method path

/-- Go `router.NewRouter`: the routes in registration order. -/
def NewRouter : List Route :=
  let api := "/api/v1"
  [ { template := api ++ "/products/{id}", methods := ["GET"], handler := Handler.GetProductDetails },
    { template := api ++ "/products/search", methods := ["GET"], handler := Handler.SearchProducts },
    { template := api ++ "/products/health", methods := ["GET"], handler := Handler.HealthCheck },
    { template := "/health", methods := ["GET"], handler := Handler.HealthCheck } ]

end router

/-! ## Reference definitions, worded as the specification -/

namespace spec

/-- The reviews of a data file that refer to the given product, in file order. -/
def reviewsOf (reviews : List model.Review) (productID : String) : List model.Review :=
  reviews.filter (fun review => decide (review.ProductID = productID))

/-- The arithmetic mean of the ratings of the given reviews, in exact arithmetic:
their sum divided by their number, and 0 when there are none. -/
def meanRating (reviews : List model.Review) : ℚ :=
  if reviews.length = 0 then 0
  else (((reviews.map (fun review => review.Rating)).sum : Int) : ℚ) / (reviews.length : ℚ)

/-- Whether `s` contains `keyword` case-insensitively: both are lower-cased
before the substring test. -/
def containsFold (ToLower : String → String) (s keyword : String) : Bool :=
  stringsContains (ToLower s) (ToLower keyword)

/-- Whether the title, description, category or brand of the product contains
the keyword case-insensitively. -/
def matchesKeyword (ToLower : String → String) (p : model.Product) (keyword : String) : Bool :=
  containsFold ToLower p.Title keyword || containsFold ToLower p.Description keyword ||
    containsFold ToLower p.Category keyword || containsFold ToLower p.Brand keyword

/-- The products of a data file that match the keyword, in file order. -/
def matchesOf (ToLower : String → String) (products : List model.Product) (keyword : String) :
    List model.Product :=
  products.filter (fun p => matchesKeyword ToLower p keyword)

end spec

/-! ## Sample data, used to instantiate the theorems -/

namespace sample

/-- A product with the given id, category and price; the other fields are fixed. -/
def mkProduct (id category : String) (price : ℚ) : model.Product :=
  { ID := id, Title := "Item " ++ id, Description := "", Price := price,
    OriginalPrice := none, DiscountPercent := none, Condition := "new",
    AvailableQuantity := 5, SoldQuantity := 1, Images := [], Category := category,
    Attributes := [], Brand := "Acme", Model := "M", CreatedAt := 0, UpdatedAt := 0 }

/-- A review of the given product with the given rating. -/
def mkReview (id productID : String) (rating : Int) : model.Review :=
  { ID := id, ProductID := productID, UserID := "u", UserName := "user", Rating := rating,
    Title := "", Comment := "", CreatedAt := 0, HelpfulCount := 0 }

/-- A question on the given product. -/
def mkQuestion (id productID : String) : model.Question :=
  { ID := id, ProductID := productID, UserID := "u", UserName := "user", Question := "?",
    Answer := "", QuestionDate := 0, AnswerDate := none, Likes := 0 }

/-- A product data file: six phones and one book. -/
def products : List model.Product :=
  [mkProduct "P1" "phones" 50000, mkProduct "P2" "phones" 50001, mkProduct "B1" "books" 100,
   mkProduct "P3" "phones" 10, mkProduct "P4" "phones" 20, mkProduct "P5" "phones" 30,
   mkProduct "P6" "phones" 40]

/-- A review data file: three reviews of `P1` rated 3, 4, 5 and one of `P2`. -/
def reviews : List model.Review :=
  [mkReview "R1" "P1" 3, mkReview "R2" "P2" 1, mkReview "R3" "P1" 4, mkReview "R4" "P1" 5]

/-- A question data file: twelve questions on `P1`. -/
def questions : List model.Question :=
  (List.range 12).map (fun i => mkQuestion (toString i) "P1")

/-- A seller data file: one seller, stored under the id `P1`. -/
def sellers : List model.Seller :=
  [{ ID := "P1", Nickname := "TiendaUno", ReputationLevel := "gold", TotalSales := 10,
     ReputationScore := 4, YearsActive := 2, IsOfficialStore := true }]

/-- The service wired to the four file-backed stores, as `main` does. -/
def svc : service.ProductAggregatorService :=
  { productRepo := (json.ProductRepository.mk products).toPort String.toLower,
    sellerClient := (json.SellerRepository.load sellers).toPort,
    reviewClient := (json.ReviewRepository.mk reviews).toPort,
    questionClient := (json.QuestionRepository.mk questions).toPort }

/-- A review data file whose two ratings of `P1` add up to `2^63`, one more than
the largest Go `int`. -/
def overflowReviews : List model.Review :=
  [mkReview "R1" "P1" 9223372036854775807, mkReview "R2" "P1" 1]

/-- A review client whose three calls fail while still returning values. -/
def failingReviews : port.ReviewClient :=
  { GetByProductID := fun _ => ([mkReview "R9" "P1" 5], some (GoErr.New "reviews down")),
    GetAverageRating := fun _ => (5, some (GoErr.New "reviews down")),
    GetTotalCount := fun _ => (1, some (GoErr.New "reviews down")) }

/-- A review client whose three calls fail and return Go zero values. -/
def downReviews : port.ReviewClient :=
  { GetByProductID := fun _ => ([], some (GoErr.New "reviews down")),
    GetAverageRating := fun _ => (0, some (GoErr.New "reviews down")),
    GetTotalCount := fun _ => (0, some (GoErr.New "reviews down")) }

/-- A question client that ignores the limit it is asked with. -/
def unboundedQuestions : port.QuestionClient :=
  { GetByProductID := fun productID _ => (questions.filter (fun q => q.ProductID = productID), none) }

/-- A model of `strings.ToLower` on ASCII letters. -/
def toLower (s : String) : String :=
  String.mk (s.data.map Char.toLower)

/-- A model of `strings.TrimSpace`: leading and trailing white space removed. -/
def trimSpace (s : String) : String :=
  String.mk ((s.data.dropWhile Char.isWhitespace).reverse.dropWhile Char.isWhitespace).reverse

/-- A model of `strconv.Atoi` on decimal strings: an optional sign and at least
one digit, with the range error of a 64-bit `int`. -/
def atoi (s : String) : Int × GoError :=
  let signed : Bool × List Char :=
    match s.data with
    | '-' :: ds => (true, ds)
    | '+' :: ds => (false, ds)
    | ds => (false, ds)
  if signed.2 = [] ∨ ¬ signed.2.all Char.isDigit then (0, some (GoErr.New "invalid syntax"))
  else
    let n : Nat := signed.2.foldl (fun acc c => 10 * acc + (c.toNat - 48)) 0
    let v : Int := if signed.1 then -(n : Int) else (n : Int)
    if v < -9223372036854775808 then (-9223372036854775808, some (GoErr.New "value out of range"))
    else if v > 9223372036854775807 then (9223372036854775807, some (GoErr.New "value out of range"))
    else (v, none)

/-- The file-backed product store of the samples. -/
def productRepo : json.ProductRepository :=
  json.ProductRepository.mk products

/-- The search service wired to the file-backed product store, as `main` does. -/
def searchSvc : service.ProductSearchService :=
  { productRepo := productRepo.toPort toLower }

/-- The handler over the two sample services. -/
def productHandler : handler.ProductHandler :=
  { aggregatorService := svc, searchService := searchSvc }

/-- The request `GET /api/v1/products/search?q=Phones&limit=500&offset=-3`. -/
def searchRequest : handler.Request :=
  { path := "/api/v1/products/search",
    queryGet := fun key =>
      if key = "q" then "Phones" else if key = "limit" then "500"
      else if key = "offset" then "-3" else "" }

/-- A review data file whose three ratings of `P1` are 1, 2 and 2, of mean `5/3`. -/
def roundingReviews : List model.Review :=
  [mkReview "R1" "P1" 1, mkReview "R2" "P1" 2, mkReview "R3" "P1" 2]

/-- The sample service with the review file replaced by `roundingReviews`. -/
def roundingSvc : service.ProductAggregatorService :=
  { svc with reviewClient := (json.ReviewRepository.mk roundingReviews).toPort }

/-- The sample service with the review file replaced by `overflowReviews`. -/
def overflowSvc : service.ProductAggregatorService :=
  { svc with reviewClient := (json.ReviewRepository.mk overflowReviews).toPort }

end sample

/-! ## Lemmas on the orchestrator -/

namespace service
open ProductAggregatorService

/-- A seller lookup that returns an error makes `fetchSeller` return the fallback. -/
theorem fetchSeller_of_error (s : ProductAggregatorService) (sellerID : String)
    (v : Option model.Seller) (e : GoErr)
    (h : s.sellerClient.GetByID sellerID = (v, some e)) :
    (s.fetchSeller sellerID).outcome = Run.done (some {
        ID := "default", Nickname := "Vendedor", ReputationLevel := "green",
        TotalSales := 0, ReputationScore := 0, YearsActive := 0,
        IsOfficialStore := false }, some e) := by
  simp [ProductAggregatorService.fetchSeller, h]
  norm_num

/-- A seller lookup that succeeds makes `fetchSeller` return its record. -/
theorem fetchSeller_of_value (s : ProductAggregatorService) (sellerID : String)
    (seller : model.Seller)
    (h : s.sellerClient.GetByID sellerID = (some seller, none)) :
    (s.fetchSeller sellerID).outcome = Run.done (some seller, none) := by
  simp [ProductAggregatorService.fetchSeller, h]

/-- Running goroutines in any order from a live state, when `fetchSeller` does
not panic: the state stays live and each field of `res` holds what its goroutine
fetched if that goroutine is in the order, and its old value otherwise. -/
theorem foldl_runGoroutine (s : ProductAggregatorService) (product : model.Product)
    (productID : String) (sl : model.Seller) (e : GoError)
    (hs : (s.fetchSeller product.ID).outcome = Run.done (some sl, e)) :
    ∀ (sched : List Goroutine) (calls : List Call) (res : result),
      ∃ calls' res', sched.foldl (s.runGoroutine product productID) (calls, Run.done res)
          = (calls', Run.done res') ∧
        res'.seller = (if Goroutine.seller ∈ sched then some sl else res.seller) ∧
        res'.reviews = (if Goroutine.reviews ∈ sched
          then (s.reviewClient.GetByProductID productID).1 else res.reviews) ∧
        res'.avgRating = (if Goroutine.reviews ∈ sched
          then (s.reviewClient.GetAverageRating productID).1 else res.avgRating) ∧
        res'.totalRevs = (if Goroutine.reviews ∈ sched
          then (s.reviewClient.GetTotalCount productID).1 else res.totalRevs) ∧
        res'.questions = (if Goroutine.questions ∈ sched
          then (s.questionClient.GetByProductID productID 10).1 else res.questions) ∧
        res'.related = (if Goroutine.related ∈ sched
          then (s.productRepo.FindRelated productID product.Category 4).1 else res.related) := by
  intro sched
  induction sched with
  | nil => intro calls res; exact ⟨calls, res, by simp⟩
  | cons g rest ih =>
    intro calls res
    cases g with
    | seller =>
      obtain ⟨cs, hcs⟩ : ∃ cs, s.fetchSeller product.ID = ⟨cs, Run.done (some sl, e)⟩ := by
        cases hfs : s.fetchSeller product.ID with
        | mk cs o => rw [hfs] at hs; simp at hs; exact ⟨cs, by rw [hs]⟩
      obtain ⟨calls', res', h1, h2, h3, h4, h5, h6, h7⟩ :=
        ih (calls ++ cs) { res with seller := some sl }
      refine ⟨calls', res', ?_, ?_, ?_, ?_, ?_, ?_, ?_⟩
      · simp [List.foldl, ProductAggregatorService.runGoroutine, hcs, h1]
      all_goals simp [*]
    | reviews =>
      obtain ⟨calls', res', h1, h2, h3, h4, h5, h6, h7⟩ :=
        ih (calls ++ (s.fetchReviews productID).1)
          { res with reviews := (s.reviewClient.GetByProductID productID).1,
                     avgRating := (s.reviewClient.GetAverageRating productID).1,
                     totalRevs := (s.reviewClient.GetTotalCount productID).1 }
      refine ⟨calls', res', ?_, ?_, ?_, ?_, ?_, ?_, ?_⟩
      · simp [List.foldl, ProductAggregatorService.runGoroutine,
          ProductAggregatorService.fetchReviews] at h1 ⊢
        exact h1
      all_goals simp [*]
    | questions =>
      obtain ⟨calls', res', h1, h2, h3, h4, h5, h6, h7⟩ :=
        ih (calls ++ (s.fetchQuestions productID).1)
          { res with questions := (s.questionClient.GetByProductID productID 10).1 }
      refine ⟨calls', res', ?_, ?_, ?_, ?_, ?_, ?_, ?_⟩
      · simp [List.foldl, ProductAggregatorService.runGoroutine,
          ProductAggregatorService.fetchQuestions] at h1 ⊢
        exact h1
      all_goals simp [*]
    | related =>
      obtain ⟨calls', res', h1, h2, h3, h4, h5, h6, h7⟩ :=
        ih (calls ++ (s.fetchRelated productID product.Category).1)
          { res with related := (s.productRepo.FindRelated productID product.Category 4).1 }
      refine ⟨calls', res', ?_, ?_, ?_, ?_, ?_, ?_, ?_⟩
      · simp [List.foldl, ProductAggregatorService.runGoroutine,
          ProductAggregatorService.fetchRelated] at h1 ⊢
        exact h1
      all_goals simp [*]

end service

namespace service

/-- The view that `GetProductDetails` assembles for a found product, for every
ordering of the four goroutines, given the outcome of `fetchSeller`. -/
theorem GetProductDetails_of_found (s : ProductAggregatorService) (sched : List Goroutine)
    (productID : String) (product : model.Product) (sl : model.Seller) (e : GoError)
    (hperm : sched.Perm allGoroutines)
    (hfind : s.productRepo.FindByID productID = (some product, none))
    (hs : (s.fetchSeller product.ID).outcome = Run.done (some sl, e)) :
    (s.GetProductDetails sched productID).outcome = Run.done (some {
        Product := product,
        Seller := sl,
        Shipping := s.buildShipping product,
        Reviews := (s.reviewClient.GetByProductID productID).1,
        AverageRating := (s.reviewClient.GetAverageRating productID).1,
        TotalReviews := (s.reviewClient.GetTotalCount productID).1,
        Questions := (s.questionClient.GetByProductID productID 10).1,
        RelatedProducts := (s.productRepo.FindRelated productID product.Category 4).1 }, none) := by
  obtain ⟨calls', res', h1, h2, h3, h4, h5, h6, h7⟩ :=
    foldl_runGoroutine s product productID sl e hs sched [Call.FindByID productID] {}
  have hm : ∀ g : Goroutine, g ∈ sched := fun g =>
    hperm.mem_iff.mpr (by cases g <;> simp [allGoroutines])
  simp only [hm, if_true] at h2 h3 h4 h5 h6 h7
  simp only [ProductAggregatorService.GetProductDetails, hfind, h1, h2, h3, h4, h5, h6, h7]

end service

/-! ## The orchestrator: not found, partial failure, seller fallback -/

namespace service

/-- C1: when the primary-entity collaborator's `FindByID` fails (returns a
non-nil error), `GetProductDetails` returns `ErrProductNotFound` and a nil view,
and the only collaborator call it makes is that `FindByID`: no call to the
seller, review or question collaborators nor to `FindRelated`. -/
theorem C1_not_found_without_fan_out (s : ProductAggregatorService) (sched : List Goroutine)
    (productID : String) (hfail : (s.productRepo.FindByID productID).2 ≠ none) :
    (s.GetProductDetails sched productID).outcome
        = Run.done (none, some GoErr.ErrProductNotFound) ∧
      (s.GetProductDetails sched productID).calls = [Call.FindByID productID] ∧
      ∀ c ∈ (s.GetProductDetails sched productID).calls, c.isFanOut = false := by
  cases hf : s.productRepo.FindByID productID with
  | mk v err =>
    cases err with
    | none => rw [hf] at hfail; exact absurd rfl hfail
    | some e =>
      simp [ProductAggregatorService.GetProductDetails, hf, Call.isFanOut]

/-- C1, at the sample service and an id that is not in the product file. -/
theorem C1_not_found_without_fan_out_witness :
    (sample.svc.productRepo.FindByID "missing").2 ≠ none ∧
      (sample.svc.GetProductDetails allGoroutines "missing").outcome
        = Run.done (none, some GoErr.ErrProductNotFound) ∧
      (sample.svc.GetProductDetails allGoroutines "missing").calls
        = [Call.FindByID "missing"] :=
  ⟨by decide,
    (C1_not_found_without_fan_out sample.svc allGoroutines "missing" (by decide)).1,
    (C1_not_found_without_fan_out sample.svc allGoroutines "missing" (by decide)).2.1⟩

/-- C2: when the primary entity is found, then whatever the seller, review,
question and related-entity calls return (the seller call giving a value or an
error), and in whatever order the four goroutines complete,
`GetProductDetails` returns a view and a nil error. The view holds a `Seller`
by value, so a seller is always present. -/
theorem C2_found_always_succeeds (s : ProductAggregatorService) (sched : List Goroutine)
    (productID : String) (product : model.Product)
    (hperm : sched.Perm allGoroutines)
    (hfind : s.productRepo.FindByID productID = (some product, none))
    (hseller : (s.sellerClient.GetByID product.ID).1 ≠ none ∨
      (s.sellerClient.GetByID product.ID).2 ≠ none) :
    ∃ view : model.ProductDetails,
      (s.GetProductDetails sched productID).outcome = Run.done (some view, none) := by
  cases hg : s.sellerClient.GetByID product.ID with
  | mk v err =>
    cases err with
    | some e =>
      exact ⟨_, GetProductDetails_of_found s sched productID product _ _ hperm hfind
        (fetchSeller_of_error s product.ID v e hg)⟩
    | none =>
      cases v with
      | none => rw [hg] at hseller; simp at hseller
      | some sl =>
        exact ⟨_, GetProductDetails_of_found s sched productID product _ _ hperm hfind
          (fetchSeller_of_value s product.ID sl hg)⟩

/-- C2, at the sample service with its review client replaced by a failing one,
for a product that has no seller record. -/
theorem C2_found_always_succeeds_witness :
    ∃ view : model.ProductDetails,
      (({ sample.svc with reviewClient := sample.failingReviews } :
        ProductAggregatorService).GetProductDetails allGoroutines "P2").outcome
        = Run.done (some view, none) :=
  C2_found_always_succeeds { sample.svc with reviewClient := sample.failingReviews }
    allGoroutines "P2" (sample.mkProduct "P2" "phones" 50001) (List.Perm.refl _)
    (by rfl) (by decide)

/-- C3: when the primary entity is found, a seller lookup that returns an error
makes the view's `Seller` the fixed fallback (`"default"`, `"Vendedor"`,
`"green"`, 0, 0.0, 0, false), and a seller lookup that succeeds makes the view's
`Seller` the record it returned. -/
theorem C3_seller_fallback_or_record (s : ProductAggregatorService) (sched : List Goroutine)
    (productID : String) (product : model.Product)
    (hperm : sched.Perm allGoroutines)
    (hfind : s.productRepo.FindByID productID = (some product, none)) :
    (∀ (v : Option model.Seller) (e : GoErr),
        s.sellerClient.GetByID product.ID = (v, some e) →
        ∃ view : model.ProductDetails,
          (s.GetProductDetails sched productID).outcome = Run.done (some view, none) ∧
          view.Seller = { ID := "default", Nickname := "Vendedor", ReputationLevel := "green",
                          TotalSales := 0, ReputationScore := 0, YearsActive := 0,
                          IsOfficialStore := false }) ∧
      (∀ seller : model.Seller,
        s.sellerClient.GetByID product.ID = (some seller, none) →
        ∃ view : model.ProductDetails,
          (s.GetProductDetails sched productID).outcome = Run.done (some view, none) ∧
          view.Seller = seller) := by
  constructor
  · intro v e hg
    exact ⟨_, GetProductDetails_of_found s sched productID product _ _ hperm hfind
      (fetchSeller_of_error s product.ID v e hg), rfl⟩
  · intro seller hg
    exact ⟨_, GetProductDetails_of_found s sched productID product _ _ hperm hfind
      (fetchSeller_of_value s product.ID seller hg), rfl⟩

/-- C3, at the sample service: `P2` has no seller record and gets the fallback. -/
theorem C3_seller_fallback_or_record_witness :
    ∃ view : model.ProductDetails,
      (sample.svc.GetProductDetails allGoroutines "P2").outcome = Run.done (some view, none) ∧
      view.Seller = { ID := "default", Nickname := "Vendedor", ReputationLevel := "green",
                      TotalSales := 0, ReputationScore := 0, YearsActive := 0,
                      IsOfficialStore := false } :=
  (C3_seller_fallback_or_record sample.svc allGoroutines "P2"
    (sample.mkProduct "P2" "phones" 50001) (List.Perm.refl _) (by rfl)).1
    none (GoErr.New "seller not found") (by rfl)

end service

/-! ## Lemmas on `float64` rounding -/

/-- A rational less than half above an integer rounds to that integer. -/
theorem roundHalfEven_of_lt (y : ℚ) (n : Int) (h1 : (n : ℚ) ≤ y) (h2 : y - n < 1 / 2) :
    roundHalfEven y = n := by
  have hf : ⌊y⌋ = n := Int.floor_eq_iff.mpr ⟨h1, by linarith⟩
  simp only [roundHalfEven, hf, if_pos h2]

/-- A rational more than half above an integer and below the next one rounds to
the next one. -/
theorem roundHalfEven_of_gt (y : ℚ) (n : Int) (h1 : 1 / 2 < y - n) (h2 : y < n + 1) :
    roundHalfEven y = n + 1 := by
  have hf : ⌊y⌋ = n := Int.floor_eq_iff.mpr ⟨by linarith, h2⟩
  have h3 : ¬ (y - n < 1 / 2) := by linarith
  simp only [roundHalfEven, hf, if_neg h3, if_pos h1]

/-- A rational halfway between two integers rounds to the even one. -/
theorem roundHalfEven_of_tie (y : ℚ) (n : Int) (h : y = n + 1 / 2) :
    roundHalfEven y = if n % 2 = 0 then n else n + 1 := by
  have hf : ⌊y⌋ = n := Int.floor_eq_iff.mpr ⟨by linarith, by linarith⟩
  have h3 : ¬ (y - n < 1 / 2) := by linarith
  have h4 : ¬ (1 / 2 < y - n) := by linarith
  simp only [roundHalfEven, hf, h3, h4, if_false]

/-- An integer rounds to itself. -/
theorem roundHalfEven_intCast (n : Int) : roundHalfEven (n : ℚ) = n :=
  roundHalfEven_of_lt _ n (le_refl _) (by norm_num)

/-- The binary exponent of a positive rational is fixed by its binade. -/
theorem log2_eq_of_bounds (x : ℚ) (e : Int) (hx : 0 < x) (hlo : (2 : ℚ) ^ e ≤ x)
    (hhi : x < (2 : ℚ) ^ (e + 1)) : Int.log 2 x = e := by
  have h1 : e ≤ Int.log 2 x :=
    (Int.zpow_le_iff_le_log (by norm_num) hx).mp (by exact_mod_cast hlo)
  have h2 : Int.log 2 x < e + 1 :=
    (Int.lt_zpow_iff_log_lt (by norm_num) hx).mp (by exact_mod_cast hhi)
  omega

/-- Rounding a positive rational of a known normal binade. -/
theorem roundFloat64_of_pos (x : ℚ) (e n : Int) (hx : 0 < x) (he : -1022 ≤ e)
    (hlo : (2 : ℚ) ^ e ≤ x) (hhi : x < (2 : ℚ) ^ (e + 1))
    (hn : roundHalfEven (x / (2 : ℚ) ^ (e - 52)) = n) :
    roundFloat64 x = (n : ℚ) * (2 : ℚ) ^ (e - 52) := by
  have hl := log2_eq_of_bounds x e hx hlo hhi
  have hne : x ≠ 0 := ne_of_gt hx
  simp only [roundFloat64, hne, if_false, abs_of_pos hx, hl, max_eq_left he, hn]

/-- A rational that is a multiple of the spacing of its binade is a binary64
value: rounding leaves it unchanged. -/
theorem roundFloat64_of_exact (x : ℚ) (n : Int)
    (h : x / (2 : ℚ) ^ (max (Int.log 2 |x|) (-1022) - 52) = n) : roundFloat64 x = x := by
  by_cases hx : x = 0
  · simp [roundFloat64, hx]
  · have hq : (2 : ℚ) ^ (max (Int.log 2 |x|) (-1022) - 52) ≠ 0 := zpow_ne_zero _ (by norm_num)
    simp only [roundFloat64, hx, if_false, h, roundHalfEven_intCast]
    rw [← h]
    field_simp

/-- Every integer of magnitude at most `2 ^ 53` is a binary64 value. -/
theorem roundFloat64_intCast (i : Int) (h1 : -9007199254740992 ≤ i)
    (h2 : i ≤ 9007199254740992) : roundFloat64 (i : ℚ) = i := by
  by_cases hi : i = 0
  · simp [roundFloat64, hi]
  · have hpos : (0 : ℚ) < |(i : ℚ)| := abs_pos.mpr (by exact_mod_cast hi)
    have hone : (1 : ℚ) ≤ |(i : ℚ)| := by
      have : (1 : Int) ≤ |i| := Int.one_le_abs hi
      exact_mod_cast this
    have hle : |(i : ℚ)| ≤ 9007199254740992 := by
      have : |i| ≤ 9007199254740992 := abs_le.mpr ⟨h1, h2⟩
      exact_mod_cast this
    have hL0 : 0 ≤ Int.log 2 |(i : ℚ)| :=
      (Int.zpow_le_iff_le_log (by norm_num) hpos).mp (by simpa using hone)
    have hL1 : Int.log 2 |(i : ℚ)| < 54 :=
      (Int.lt_zpow_iff_log_lt (by norm_num) hpos).mp (by
        have : |(i : ℚ)| < 18014398509481984 := lt_of_le_of_lt hle (by norm_num)
        simpa using (by norm_num at this ⊢; exact this))
    have hlow : ((2 : ℕ) : ℚ) ^ Int.log 2 |(i : ℚ)| ≤ |(i : ℚ)| :=
      Int.zpow_log_le_self (by norm_num) hpos
    have hex : ∃ n : Int,
        (i : ℚ) / (2 : ℚ) ^ (max (Int.log 2 |(i : ℚ)|) (-1022) - 52) = n := by
      generalize Int.log 2 |(i : ℚ)| = L at hL0 hL1 hlow ⊢
      rw [max_eq_left (by omega)]
      by_cases h52 : L ≤ 52
      · refine ⟨i * 2 ^ (52 - L).toNat, ?_⟩
        have hq : (2 : ℚ) ^ (L - 52) = ((2 : ℚ) ^ (52 - L).toNat)⁻¹ := by
          rw [← zpow_natCast, Int.toNat_of_nonneg (by omega), ← zpow_neg]
          congr 1
          omega
        rw [hq]
        push_cast
        field_simp
      · have hL : L = 53 := by omega
        subst hL
        have habs : |(i : ℚ)| = 9007199254740992 := le_antisymm hle (by
          have := hlow
          norm_num at this
          exact this)
        have habsI : |i| = 9007199254740992 := by exact_mod_cast habs
        rcases abs_eq (by norm_num : (0 : Int) ≤ 9007199254740992) |>.mp habsI with e | e
        · exact ⟨4503599627370496, by subst e; norm_num⟩
        · exact ⟨-4503599627370496, by subst e; norm_num⟩
    obtain ⟨n, hn⟩ := hex
    exact roundFloat64_of_exact _ n hn

/-- A rational of a known normal binade that is a multiple of the spacing of
that binade is a binary64 value. -/
theorem roundFloat64_of_exact_binade (x : ℚ) (e n : Int) (hx : x ≠ 0) (he : -1022 ≤ e)
    (hlo : (2 : ℚ) ^ e ≤ |x|) (hhi : |x| < (2 : ℚ) ^ (e + 1))
    (h : x / (2 : ℚ) ^ (e - 52) = n) : roundFloat64 x = x := by
  have hl := log2_eq_of_bounds |x| e (abs_pos.mpr hx) hlo hhi
  exact roundFloat64_of_exact x n (by rw [hl, max_eq_left he]; exact h)

/-- The `float64` quotient of two integers of magnitude at most `2 ^ 53` is their
exact quotient, rounded once. -/
theorem float64Div_float64OfInt (a b : Int)
    (ha1 : -9007199254740992 ≤ a) (ha2 : a ≤ 9007199254740992)
    (hb1 : -9007199254740992 ≤ b) (hb2 : b ≤ 9007199254740992) :
    float64Div (float64OfInt a) (float64OfInt b) = roundFloat64 ((a : ℚ) / (b : ℚ)) := by
  simp only [float64Div, float64OfInt, roundFloat64_intCast a ha1 ha2,
    roundFloat64_intCast b hb1 hb2]

/-- The constant `0.0` as a `float64`. -/
theorem float64Const_zero : float64Const 0.0 = 0 := by
  have h : (0.0 : ℚ) = 0 := by norm_num
  rw [float64Const, h]
  simp [roundFloat64]

/-- The constant `0.05` as a `float64`: the binary64 value nearest to it. -/
theorem float64Const_twentieth :
    float64Const 0.05 = 3602879701896397 / 72057594037927936 := by
  have h : (0.05 : ℚ) = 5 / 100 := by norm_num
  rw [float64Const, h,
    roundFloat64_of_pos (5 / 100) (-5) 7205759403792794 (by norm_num) (by norm_num)
      (by norm_num) (by norm_num)
      (roundHalfEven_of_gt _ 7205759403792793 (by norm_num) (by norm_num))]
  norm_num

/-! ## The shipping calculator -/

namespace service

/-- C4: for every product, `buildShipping` sets `FreeShipping` to true exactly
when the price is strictly greater than 50000; a price of 50000 gives false and
a price of 50001 gives true. -/
theorem C4_free_shipping_iff_price_above_50000 (s : ProductAggregatorService)
    (product : model.Product) :
    ((s.buildShipping product).FreeShipping = true ↔ product.Price > 50000) ∧
      (s.buildShipping { product with Price := 50000 }).FreeShipping = false ∧
      (s.buildShipping { product with Price := 50001 }).FreeShipping = true := by
  refine ⟨?_, ?_, ?_⟩
  · simp [ProductAggregatorService.buildShipping]
  · simp [ProductAggregatorService.buildShipping]
  · simp [ProductAggregatorService.buildShipping]
    norm_num

/-- C5, as stated, fails: at a price of 3 the cost is the `float64` product
`3 * 0.05`, which is `1351079888211149 / 2 ^ 53` (printed
`0.15000000000000002`) and not one twentieth of 3. -/
theorem C5_cost_counterexample :
    (sample.svc.buildShipping (sample.mkProduct "P7" "phones" 3)).Cost
        = 1351079888211149 / 9007199254740992 ∧
      (sample.svc.buildShipping (sample.mkProduct "P7" "phones" 3)).Cost ≠ 3 * (1 / 20) := by
  have h : (sample.svc.buildShipping (sample.mkProduct "P7" "phones" 3)).Cost
      = 1351079888211149 / 9007199254740992 := by
    have hlt : ¬ ((3 : ℚ) > 50000) := by norm_num
    simp only [ProductAggregatorService.buildShipping, sample.mkProduct, hlt, decide_False,
      Bool.not_false, if_true, float64Const_twentieth, float64Mul]
    rw [roundFloat64_of_pos _ (-3) 5404319552844596 (by norm_num) (by norm_num) (by norm_num)
      (by norm_num)
      ((roundHalfEven_of_tie _ 5404319552844595 (by norm_num)).trans (by decide))]
    norm_num
  refine ⟨h, ?_⟩
  rw [h]
  norm_num

/-- C5, amended: for every product, `buildShipping` sets `Cost` to 0 when the
price is above 50000 and otherwise to the `float64` product of the price and
`0.05`, that is the exact product of the price and the `float64` nearest to
`0.05` (`3602879701896397 / 2 ^ 56`), rounded to the nearest `float64`, ties to
even; a price of 50000 gives cost 2500 and a price of 50001 gives 0. -/
theorem C5_cost_is_zero_or_rounded_product (s : ProductAggregatorService)
    (product : model.Product) :
    (s.buildShipping product).Cost
        = (if product.Price > 50000 then 0
           else roundFloat64 (product.Price * (3602879701896397 / 72057594037927936))) ∧
      (s.buildShipping { product with Price := 50000 }).Cost = 2500 ∧
      (s.buildShipping { product with Price := 50001 }).Cost = 0 := by
  have hgen : ∀ p : model.Product, (s.buildShipping p).Cost
      = (if p.Price > 50000 then 0
         else roundFloat64 (p.Price * (3602879701896397 / 72057594037927936))) := by
    intro p
    simp only [ProductAggregatorService.buildShipping, float64Const_twentieth,
      float64Const_zero, float64Mul]
    by_cases h : p.Price > 50000
    · simp [h]
    · simp [h]
  refine ⟨hgen product, ?_, ?_⟩
  · rw [hgen]
    have hlt : ¬ ((50000 : ℚ) > 50000) := by norm_num
    simp only [hlt, if_false]
    rw [roundFloat64_of_pos _ 11 5497558138880000 (by norm_num) (by norm_num) (by norm_num)
      (by norm_num) (roundHalfEven_of_lt _ 5497558138880000 (by norm_num) (by norm_num))]
    norm_num
  · rw [hgen]
    have hgt : (50001 : ℚ) > 50000 := by norm_num
    simp only [hgt, if_true]

/-- C6, as stated, fails: at the first sample product the delivery estimate is
not `"3–5 days"` and the pickup label is not `"yes"`. -/
theorem C6_labels_counterexample :
    ¬ ((sample.svc.buildShipping (sample.mkProduct "P1" "phones" 50000)).ShippingMode = "standard" ∧
        (sample.svc.buildShipping (sample.mkProduct "P1" "phones" 50000)).EstimatedDelivery
          = "3–5 days" ∧
        (sample.svc.buildShipping (sample.mkProduct "P1" "phones" 50000)).FullFulfillment = false ∧
        (sample.svc.buildShipping (sample.mkProduct "P1" "phones" 50000)).PickupAvailable = "yes") := by
  decide

/-- C6, amended: for every product, whatever its price, `buildShipping` returns
mode `"standard"`, delivery estimate `"Llega en 3-5 días"`, fulfillment flag
false and pickup label `"Si"`. -/
theorem C6_fixed_shipping_fields (s : ProductAggregatorService) (product : model.Product) :
    (s.buildShipping product).ShippingMode = "standard" ∧
      (s.buildShipping product).EstimatedDelivery = "Llega en 3-5 días" ∧
      (s.buildShipping product).FullFulfillment = false ∧
      (s.buildShipping product).PickupAvailable = "Si" :=
  ⟨rfl, rfl, rfl, rfl⟩

end service

/-! ## Lemmas on the file-backed stores -/

/-- Wrapping leaves an integer of the signed 64-bit range unchanged. -/
theorem wrapInt64_of_fits (x : Int) (h1 : -9223372036854775808 ≤ x)
    (h2 : x < 9223372036854775808) : wrapInt64 x = x := by
  unfold wrapInt64
  omega

namespace json

/-- The question loop, entered with `count` below the limit, appends the first
`limit - count` matching questions. -/
theorem QuestionRepository.GetByProductID_go_eq (productID : String) (limit : Int)
    (hlim : limit < 9223372036854775808) :
    ∀ (qs results : List model.Question) (count : Int), 0 ≤ count → count < limit →
      QuestionRepository.GetByProductID.go productID limit qs results count
        = results ++ (qs.filter (fun q => decide (q.ProductID = productID))).take
            (limit - count).toNat := by
  intro qs
  induction qs with
  | nil => intro results count _ _; simp [QuestionRepository.GetByProductID.go]
  | cons q rest ih =>
    intro results count h0 hc
    by_cases hq : q.ProductID = productID
    · have hw : wrapInt64 (count + 1) = count + 1 := wrapInt64_of_fits _ (by omega) (by omega)
      by_cases hge : count + 1 ≥ limit
      · have h1 : (limit - count).toNat = 1 := by omega
        simp [QuestionRepository.GetByProductID.go, hq, hw, hge, h1]
      · have h1 : (limit - count).toNat = (limit - (count + 1)).toNat + 1 := by omega
        simp only [QuestionRepository.GetByProductID.go, hq, hw, hge, if_true, if_false]
        rw [ih (results ++ [q]) (count + 1) (by omega) (by omega), h1]
        simp [hq]
    · simp only [QuestionRepository.GetByProductID.go, hq, if_false]
      rw [ih results count h0 hc]
      simp [hq]

/-- For a limit of at least 1, the question feed returns the first `limit`
questions of the product, in file order. -/
theorem QuestionRepository.GetByProductID_eq_take (r : QuestionRepository) (productID : String)
    (limit : Int) (h1 : 1 ≤ limit) (hlim : limit < 9223372036854775808) :
    r.GetByProductID productID limit
      = ((r.questions.filter (fun q => decide (q.ProductID = productID))).take limit.toNat, none) := by
  simp [QuestionRepository.GetByProductID,
    QuestionRepository.GetByProductID_go_eq productID limit hlim r.questions [] 0 (le_refl 0) (by omega)]

end json

namespace json

/-- The related-products loop, entered with fewer than `limit` results, appends
the first `limit - len results` matching products. -/
theorem ProductRepository.FindRelated_go_eq (productID category : String) (limit : Int) :
    ∀ (ps results : List model.Product), len results < limit →
      ProductRepository.FindRelated.go productID category limit ps results
        = results ++ (ps.filter
            (fun p => decide (p.ID ≠ productID ∧ p.Category = category))).take
            (limit - len results).toNat := by
  intro ps
  induction ps with
  | nil => intro results _; simp [ProductRepository.FindRelated.go]
  | cons p rest ih =>
    intro results hc
    have hlen : len (results ++ [p]) = len results + 1 := by simp [len]
    by_cases hp : p.ID ≠ productID ∧ p.Category = category
    · by_cases hge : len (results ++ [p]) ≥ limit
      · have h1 : (limit - len results).toNat = 1 := by omega
        simp only [ProductRepository.FindRelated.go, hp, hge, if_true, h1]
        simp [hp]
      · have h1 : (limit - len results).toNat = (limit - len (results ++ [p])).toNat + 1 := by
          omega
        simp only [ProductRepository.FindRelated.go, hp, hge, if_true, if_false]
        rw [ih (results ++ [p]) (by omega), h1]
        simp [hp]
    · simp only [ProductRepository.FindRelated.go, hp, if_false]
      rw [ih results hc]
      simp [hp]

/-- For a limit of at least 1, `FindRelated` returns the first `limit` products
of the category other than the given one, in file order. -/
theorem ProductRepository.FindRelated_eq (r : ProductRepository) (productID category : String)
    (limit : Int) (h1 : 1 ≤ limit) :
    r.FindRelated productID category limit
      = ((r.products.filter
          (fun p => decide (p.ID ≠ productID ∧ p.Category = category))).take limit.toNat,
        none) := by
  simp [ProductRepository.FindRelated,
    ProductRepository.FindRelated_go_eq productID category limit r.products [] (by simp [len]; omega),
    len]

end json

namespace service

/-- A seller lookup that gives a value or an error never makes `fetchSeller` panic. -/
theorem fetchSeller_done (s : ProductAggregatorService) (sellerID : String)
    (h : (s.sellerClient.GetByID sellerID).1 ≠ none ∨ (s.sellerClient.GetByID sellerID).2 ≠ none) :
    ∃ (sl : model.Seller) (e : GoError),
      (s.fetchSeller sellerID).outcome = Run.done (some sl, e) := by
  cases hg : s.sellerClient.GetByID sellerID with
  | mk v err =>
    cases err with
    | some e => exact ⟨_, _, fetchSeller_of_error s sellerID v e hg⟩
    | none =>
      cases v with
      | none => rw [hg] at h; simp at h
      | some sl => exact ⟨_, _, fetchSeller_of_value s sellerID sl hg⟩

/-- The view that `GetProductDetails` assembles for a found product when the
seller lookup gives a value or an error. -/
theorem GetProductDetails_view (s : ProductAggregatorService) (sched : List Goroutine)
    (productID : String) (product : model.Product)
    (hperm : sched.Perm allGoroutines)
    (hfind : s.productRepo.FindByID productID = (some product, none))
    (hseller : (s.sellerClient.GetByID product.ID).1 ≠ none ∨
      (s.sellerClient.GetByID product.ID).2 ≠ none) :
    ∃ sl : model.Seller,
      (s.GetProductDetails sched productID).outcome = Run.done (some {
        Product := product,
        Seller := sl,
        Shipping := s.buildShipping product,
        Reviews := (s.reviewClient.GetByProductID productID).1,
        AverageRating := (s.reviewClient.GetAverageRating productID).1,
        TotalReviews := (s.reviewClient.GetTotalCount productID).1,
        Questions := (s.questionClient.GetByProductID productID 10).1,
        RelatedProducts := (s.productRepo.FindRelated productID product.Category 4).1 }, none) := by
  obtain ⟨sl, e, hs⟩ := fetchSeller_done s product.ID hseller
  exact ⟨sl, GetProductDetails_of_found s sched productID product sl e hperm hfind hs⟩

end service

/-! ## The enrichments: questions, related products, reviews -/

namespace service

/-- C7, as stated, fails: with a question collaborator that returns all twelve
questions of `P1` although asked with limit 10, the view of `P1` has more than
10 questions. -/
theorem C7_questions_counterexample :
    ∃ view : model.ProductDetails,
      (({ sample.svc with questionClient := sample.unboundedQuestions } :
        ProductAggregatorService).GetProductDetails allGoroutines "P1").outcome
        = Run.done (some view, none) ∧
      ¬ view.Questions.length ≤ 10 :=
  ⟨_, rfl, by decide⟩

/-- C7, amended: when the primary entity is found, the `Questions` of the view
is exactly the list the question collaborator returned when asked with limit
10, untruncated; so it has at most 10 entries whenever the collaborator honours
the limit, as the file-backed `QuestionRepository` does on every data file. -/
theorem C7_questions_as_returned (s : ProductAggregatorService) (sched : List Goroutine)
    (productID : String) (product : model.Product)
    (hperm : sched.Perm allGoroutines)
    (hfind : s.productRepo.FindByID productID = (some product, none))
    (hseller : (s.sellerClient.GetByID product.ID).1 ≠ none ∨
      (s.sellerClient.GetByID product.ID).2 ≠ none) :
    ∃ view : model.ProductDetails,
      (s.GetProductDetails sched productID).outcome = Run.done (some view, none) ∧
      view.Questions = (s.questionClient.GetByProductID productID 10).1 ∧
      (∀ r : json.QuestionRepository, s.questionClient = r.toPort →
        view.Questions.length ≤ 10) := by
  obtain ⟨sl, h⟩ := GetProductDetails_view s sched productID product hperm hfind hseller
  refine ⟨_, h, rfl, ?_⟩
  intro r hr
  simp only [hr, json.QuestionRepository.toPort,
    json.QuestionRepository.GetByProductID_eq_take r productID 10 (by decide) (by decide)]
  simp

/-- C7 amended, at the sample service: the question file has twelve questions on
`P1` and the view carries at most ten. -/
theorem C7_questions_as_returned_witness :
    ∃ view : model.ProductDetails,
      (sample.svc.GetProductDetails allGoroutines "P1").outcome = Run.done (some view, none) ∧
      view.Questions.length ≤ 10 :=
  (C7_questions_as_returned sample.svc allGoroutines "P1" (sample.mkProduct "P1" "phones" 50000)
    (List.Perm.refl _) (by rfl) (by decide)).elim
    (fun view h => ⟨view, h.1, h.2.2 (json.QuestionRepository.mk sample.questions) rfl⟩)

/-- C8: with the file-backed product store, when the primary entity `P` of `id`
is found, the `RelatedProducts` of the view is exactly the first `min 4 k`
products, in file order, of the `k` products whose id differs from `id` and
whose category equals `P.Category`; so it never contains `id`, holds only
products of that category, and has at most 4 entries. -/
theorem C8_related_products (ToLower : String → String) (r : json.ProductRepository)
    (s : ProductAggregatorService) (sched : List Goroutine)
    (productID : String) (product : model.Product)
    (hrepo : s.productRepo = r.toPort ToLower)
    (hperm : sched.Perm allGoroutines)
    (hfind : r.FindByID productID = (some product, none))
    (hseller : (s.sellerClient.GetByID product.ID).1 ≠ none ∨
      (s.sellerClient.GetByID product.ID).2 ≠ none) :
    ∃ view : model.ProductDetails,
      (s.GetProductDetails sched productID).outcome = Run.done (some view, none) ∧
      view.RelatedProducts
        = (r.products.filter
            (fun p => decide (p.ID ≠ productID ∧ p.Category = product.Category))).take
            (min 4 (r.products.filter
              (fun p => decide (p.ID ≠ productID ∧ p.Category = product.Category))).length) ∧
      (∀ p ∈ view.RelatedProducts, p.ID ≠ productID ∧ p.Category = product.Category) ∧
      view.RelatedProducts.length ≤ 4 := by
  have hfind' : s.productRepo.FindByID productID = (some product, none) := by
    rw [hrepo]; exact hfind
  obtain ⟨sl, h⟩ := GetProductDetails_view s sched productID product hperm hfind' hseller
  have hrel : (s.productRepo.FindRelated productID product.Category 4).1
      = (r.products.filter
          (fun p => decide (p.ID ≠ productID ∧ p.Category = product.Category))).take 4 := by
    rw [hrepo]
    simp only [json.ProductRepository.toPort,
      json.ProductRepository.FindRelated_eq r productID product.Category 4 (by decide)]
    rfl
  refine ⟨_, h, ?_, ?_, ?_⟩
  · simp only [hrel]
    rw [List.take_eq_take]
    simp
  · intro p hp
    simp only [hrel] at hp
    have := List.mem_of_mem_take hp
    simpa using (List.mem_filter.mp this).2
  · simp only [hrel]
    simp

/-- C8, at the sample service: `P1` is one of six phones, so its view lists the
first four of the other five. -/
theorem C8_related_products_witness :
    ∃ view : model.ProductDetails,
      (sample.svc.GetProductDetails allGoroutines "P1").outcome = Run.done (some view, none) ∧
      view.RelatedProducts.map (fun p => p.ID) = ["P2", "P3", "P4", "P5"] :=
  (C8_related_products String.toLower (json.ProductRepository.mk sample.products) sample.svc
    allGoroutines "P1" (sample.mkProduct "P1" "phones" 50000) rfl (List.Perm.refl _)
    (by rfl) (by decide)).elim
    (fun view h => ⟨view, h.1, by rw [h.2.1]; decide⟩)

end service

namespace service

/-- C9, as stated, fails: with a review collaborator whose three calls return an
error together with values, the view of `P1` carries those values instead of an
empty sequence and a zero summary. -/
theorem C9_reviews_counterexample :
    (sample.failingReviews.GetByProductID "P1").2 ≠ none ∧
      (sample.failingReviews.GetAverageRating "P1").2 ≠ none ∧
      (sample.failingReviews.GetTotalCount "P1").2 ≠ none ∧
      ∃ view : model.ProductDetails,
        (({ sample.svc with reviewClient := sample.failingReviews } :
          ProductAggregatorService).GetProductDetails allGoroutines "P1").outcome
          = Run.done (some view, none) ∧
        ¬ (view.Reviews = [] ∧ view.AverageRating = 0 ∧ view.TotalReviews = 0) :=
  ⟨by decide, by decide, by decide, _, rfl, by decide⟩

/-- C9, amended: when the primary entity is found, the `Reviews`,
`AverageRating` and `TotalReviews` of the view are the values the review
collaborator's `GetByProductID`, `GetAverageRating` and `GetTotalCount`
returned, whether or not they also returned an error; so when they return the
zero values (nil slice, 0.0, 0), as failing calls conventionally do, the view
has an empty `Reviews`, `AverageRating` 0 and `TotalReviews` 0. -/
theorem C9_reviews_as_returned (s : ProductAggregatorService) (sched : List Goroutine)
    (productID : String) (product : model.Product)
    (hperm : sched.Perm allGoroutines)
    (hfind : s.productRepo.FindByID productID = (some product, none))
    (hseller : (s.sellerClient.GetByID product.ID).1 ≠ none ∨
      (s.sellerClient.GetByID product.ID).2 ≠ none) :
    ∃ view : model.ProductDetails,
      (s.GetProductDetails sched productID).outcome = Run.done (some view, none) ∧
      view.Reviews = (s.reviewClient.GetByProductID productID).1 ∧
      view.AverageRating = (s.reviewClient.GetAverageRating productID).1 ∧
      view.TotalReviews = (s.reviewClient.GetTotalCount productID).1 ∧
      ((s.reviewClient.GetByProductID productID).1 = [] →
        (s.reviewClient.GetAverageRating productID).1 = 0 →
        (s.reviewClient.GetTotalCount productID).1 = 0 →
        view.Reviews = [] ∧ view.AverageRating = 0 ∧ view.TotalReviews = 0) := by
  obtain ⟨sl, h⟩ := GetProductDetails_view s sched productID product hperm hfind hseller
  exact ⟨_, h, rfl, rfl, rfl, fun h1 h2 h3 => ⟨h1, h2, h3⟩⟩

/-- C9 amended, at the sample service with a review client that fails with zero
values: the view of `P1` has no reviews and a zero summary. -/
theorem C9_reviews_as_returned_witness :
    ∃ view : model.ProductDetails,
      (({ sample.svc with reviewClient := sample.downReviews } :
        ProductAggregatorService).GetProductDetails allGoroutines "P1").outcome
        = Run.done (some view, none) ∧
      view.Reviews = [] ∧ view.AverageRating = 0 ∧ view.TotalReviews = 0 :=
  (C9_reviews_as_returned { sample.svc with reviewClient := sample.downReviews }
    allGoroutines "P1" (sample.mkProduct "P1" "phones" 50000) (List.Perm.refl _)
    (by rfl) (by decide)).elim
    (fun view h => ⟨view, h.1, h.2.2.2.2 rfl rfl rfl⟩)

end service

/-! ## The file-backed review store -/

namespace json

/-- Wrapping an intermediate sum does not change the wrapped total. -/
theorem wrapInt64_add_wrapInt64 (a b : Int) : wrapInt64 (wrapInt64 a + b) = wrapInt64 (a + b) := by
  unfold wrapInt64
  omega

/-- The review loop returns the reviews of the product, in file order, and no error. -/
theorem ReviewRepository.GetByProductID_eq_reviewsOf (r : ReviewRepository) (productID : String) :
    r.GetByProductID productID = (spec.reviewsOf r.reviews productID, none) := by
  have key : ∀ (rs acc : List model.Review),
      rs.foldl (fun results review =>
          if review.ProductID = productID then results ++ [review] else results) acc
        = acc ++ spec.reviewsOf rs productID := by
    intro rs
    induction rs with
    | nil => intro acc; simp [spec.reviewsOf]
    | cons x rest ih =>
      intro acc
      by_cases hx : x.ProductID = productID
      · simp [List.foldl, hx, ih, spec.reviewsOf]
      · simp [List.foldl, hx, ih, spec.reviewsOf]
  simp [ReviewRepository.GetByProductID, key]

/-- The rating loop computes the sum of the ratings, wrapped to 64 bits. -/
theorem ReviewRepository.sum_loop (rs : List model.Review) :
    ∀ a : Int, rs.foldl (fun sum review => wrapInt64 (sum + review.Rating)) (wrapInt64 a)
      = wrapInt64 (a + (rs.map (fun review => review.Rating)).sum) := by
  induction rs with
  | nil => intro a; simp
  | cons x rest ih =>
    intro a
    simp only [List.foldl, List.map, List.sum_cons]
    rw [wrapInt64_add_wrapInt64, ih (a + x.Rating), add_assoc]

/-- `GetTotalCount` returns the number of reviews of the product. -/
theorem ReviewRepository.GetTotalCount_eq_length (r : ReviewRepository) (productID : String) :
    r.GetTotalCount productID
      = (((spec.reviewsOf r.reviews productID).length : Int), none) := by
  simp [ReviewRepository.GetTotalCount, ReviewRepository.GetByProductID_eq_reviewsOf, len]

/-- What `GetAverageRating` computes: 0 without reviews, and otherwise the
`float64` quotient of the wrapped `int` sum of the ratings by their number. -/
theorem ReviewRepository.GetAverageRating_eq (r : ReviewRepository) (productID : String) :
    r.GetAverageRating productID
      = (if (spec.reviewsOf r.reviews productID).length = 0 then 0
         else float64Div
           (float64OfInt (wrapInt64
             ((spec.reviewsOf r.reviews productID).map (fun review => review.Rating)).sum))
           (float64OfInt ((spec.reviewsOf r.reviews productID).length : Int)), none) := by
  have hs := ReviewRepository.sum_loop (spec.reviewsOf r.reviews productID) 0
  have hw0 : wrapInt64 0 = 0 := by decide
  rw [hw0, zero_add] at hs
  simp only [ReviewRepository.GetAverageRating, ReviewRepository.GetByProductID_eq_reviewsOf,
    len, hs]
  by_cases h0 : (spec.reviewsOf r.reviews productID).length = 0
  · simp [h0]
  · have h0' : ¬ ((spec.reviewsOf r.reviews productID).length : Int) = 0 := by
      exact_mod_cast h0
    simp [h0, h0']

/-- When the sum of the ratings and their number are at most `2 ^ 53` in
magnitude, `GetAverageRating` returns their mean rounded to `float64`. -/
theorem ReviewRepository.GetAverageRating_of_small (r : ReviewRepository) (productID : String)
    (h1 : -9007199254740992
      ≤ ((spec.reviewsOf r.reviews productID).map (fun review => review.Rating)).sum)
    (h2 : ((spec.reviewsOf r.reviews productID).map (fun review => review.Rating)).sum
      ≤ 9007199254740992)
    (h3 : ((spec.reviewsOf r.reviews productID).length : Int) ≤ 9007199254740992) :
    r.GetAverageRating productID
      = (roundFloat64 (spec.meanRating (spec.reviewsOf r.reviews productID)), none) := by
  rw [ReviewRepository.GetAverageRating_eq]
  by_cases h0 : (spec.reviewsOf r.reviews productID).length = 0
  · simp [h0, spec.meanRating, roundFloat64]
  · rw [wrapInt64_of_fits _ (by omega) (by omega),
      float64Div_float64OfInt _ _ h1 h2 (by omega) h3]
    simp [h0, spec.meanRating]

/-- C10, as stated, fails twice. For a data file with two reviews of `P1` rated
`2^63 - 1` and `1`, the `int` sum wraps and `GetAverageRating` returns `-2^62`,
while the arithmetic mean of the two ratings is `2^62`. For a data file with
three reviews of `P1` rated 1, 2 and 2, `GetAverageRating` returns the `float64`
`7505999378950827 / 2^52` (printed `1.6666666666666667`), while the arithmetic
mean is `5/3`. -/
theorem C10_average_counterexample :
    ((ReviewRepository.mk sample.overflowReviews).GetAverageRating "P1").1 = -4611686018427387904 ∧
      spec.meanRating (spec.reviewsOf sample.overflowReviews "P1") = 4611686018427387904 ∧
      ((ReviewRepository.mk sample.roundingReviews).GetAverageRating "P1").1
        = 7505999378950827 / 4503599627370496 ∧
      spec.meanRating (spec.reviewsOf sample.roundingReviews "P1") = 5 / 3 ∧
      ((ReviewRepository.mk sample.roundingReviews).GetAverageRating "P1").1
        ≠ spec.meanRating (spec.reviewsOf sample.roundingReviews "P1") := by
  have h1 : ((ReviewRepository.mk sample.overflowReviews).GetAverageRating "P1").1
      = -4611686018427387904 := by
    rw [ReviewRepository.GetAverageRating_eq]
    have hl : (spec.reviewsOf (ReviewRepository.mk sample.overflowReviews).reviews "P1").length
        = 2 := by decide
    have hsum : wrapInt64 ((spec.reviewsOf (ReviewRepository.mk sample.overflowReviews).reviews
        "P1").map (fun review => review.Rating)).sum = -9223372036854775808 := by decide
    simp only [hl, hsum, float64Div, float64OfInt]
    have ha : roundFloat64 ((-9223372036854775808 : Int) : ℚ) = -9223372036854775808 := by
      have := roundFloat64_of_exact_binade (-9223372036854775808) 63 (-4503599627370496)
        (by norm_num) (by norm_num) (by norm_num [abs_of_neg]) (by norm_num [abs_of_neg])
        (by norm_num)
      simpa using this
    have hb : roundFloat64 (((2 : Nat) : Int) : ℚ) = 2 := by
      simpa using roundFloat64_intCast 2 (by norm_num) (by norm_num)
    rw [ha, hb]
    have hc := roundFloat64_of_exact_binade (-9223372036854775808 / 2) 62 (-4503599627370496)
      (by norm_num) (by norm_num) (by norm_num [abs_of_neg]) (by norm_num [abs_of_neg])
      (by norm_num)
    simp only [hc]
    norm_num
  have h2 : spec.meanRating (spec.reviewsOf sample.overflowReviews "P1")
      = 4611686018427387904 := by
    simp [spec.meanRating, spec.reviewsOf, sample.overflowReviews, sample.mkReview]
    norm_num
  have h3 : ((ReviewRepository.mk sample.roundingReviews).GetAverageRating "P1").1
      = 7505999378950827 / 4503599627370496 := by
    rw [ReviewRepository.GetAverageRating_of_small _ _ (by decide) (by decide) (by decide)]
    have hm : spec.meanRating (spec.reviewsOf (ReviewRepository.mk sample.roundingReviews).reviews
        "P1") = 5 / 3 := by
      simp [spec.meanRating, spec.reviewsOf, sample.roundingReviews, sample.mkReview]
    simp only [hm]
    rw [roundFloat64_of_pos (5 / 3) 0 7505999378950827 (by norm_num) (by norm_num)
      (by norm_num) (by norm_num)
      (roundHalfEven_of_gt _ 7505999378950826 (by norm_num) (by norm_num))]
    norm_num
  have h4 : spec.meanRating (spec.reviewsOf sample.roundingReviews "P1") = 5 / 3 := by
    simp [spec.meanRating, spec.reviewsOf, sample.roundingReviews, sample.mkReview]
  refine ⟨h1, h2, h3, h4, ?_⟩
  rw [h3, h4]
  norm_num

/-- C10, amended: for every review data file and product id, `GetTotalCount`
returns the number of reviews whose `ProductID` equals the id, and
`GetAverageRating` returns 0 when there are none and otherwise the `float64`
quotient `float64(sum) / float64(n)` of the Go `int` sum of their ratings
(computed modulo `2^64`) by their number `n`; when the sum and the number are at
most `2^53` in magnitude this is the arithmetic mean (sum of ratings divided by
their number) rounded to the nearest `float64`, ties to even. For the sample
file, whose reviews of `P1` are rated 3, 4, 5, the average is 4 and the total
is 3. -/
theorem C10_average_and_total (r : ReviewRepository) (productID : String) :
    r.GetTotalCount productID
        = (((spec.reviewsOf r.reviews productID).length : Int), none) ∧
      r.GetAverageRating productID
        = (if (spec.reviewsOf r.reviews productID).length = 0 then 0
           else float64Div
             (float64OfInt (wrapInt64
               ((spec.reviewsOf r.reviews productID).map (fun review => review.Rating)).sum))
             (float64OfInt ((spec.reviewsOf r.reviews productID).length : Int)), none) ∧
      (-9007199254740992
          ≤ ((spec.reviewsOf r.reviews productID).map (fun review => review.Rating)).sum →
        ((spec.reviewsOf r.reviews productID).map (fun review => review.Rating)).sum
          ≤ 9007199254740992 →
        ((spec.reviewsOf r.reviews productID).length : Int) ≤ 9007199254740992 →
        r.GetAverageRating productID
          = (roundFloat64 (spec.meanRating (spec.reviewsOf r.reviews productID)), none)) ∧
      (ReviewRepository.mk sample.reviews).GetAverageRating "P1" = (4, none) ∧
      (ReviewRepository.mk sample.reviews).GetTotalCount "P1" = (3, none) := by
  refine ⟨ReviewRepository.GetTotalCount_eq_length r productID,
    ReviewRepository.GetAverageRating_eq r productID,
    ReviewRepository.GetAverageRating_of_small r productID, ?_, by decide⟩
  rw [ReviewRepository.GetAverageRating_of_small _ _ (by decide) (by decide) (by decide)]
  have hm : spec.meanRating (spec.reviewsOf (ReviewRepository.mk sample.reviews).reviews "P1")
      = ((4 : Int) : ℚ) := by
    simp [spec.meanRating, spec.reviewsOf, sample.reviews, sample.mkReview]
    norm_num
  rw [hm, roundFloat64_intCast 4 (by norm_num) (by norm_num)]
  norm_num

/-- C10 amended, at the sample review file and product `P2`, which has a single
review rated 1: the average is the mean rounded to `float64` and the total is 1. -/
theorem C10_average_and_total_witness :
    (ReviewRepository.mk sample.reviews).GetAverageRating "P2"
        = (roundFloat64 (spec.meanRating (spec.reviewsOf sample.reviews "P2")), none) ∧
      (ReviewRepository.mk sample.reviews).GetTotalCount "P2" = (1, none) :=
  ⟨(C10_average_and_total (ReviewRepository.mk sample.reviews) "P2").2.2.1
      (by decide) (by decide) (by decide),
    (C10_average_and_total (ReviewRepository.mk sample.reviews) "P2").1⟩

end json

/-! ## The router -/

namespace router

/-- A path that matches the template of the search route also matches the
template `/products/{id}` registered before it. -/
theorem matchTemplate_search_shadowed (path : String)
    (h : matchTemplate "/api/v1/products/search" path ≠ none) :
    matchTemplate "/api/v1/products/{id}" path = some [("id", "search")] := by
  have h1 : splitSlash "/api/v1/products/search".data
      = [[], "api".data, "v1".data, "products".data, "search".data] := by decide
  have h2 : splitSlash "/api/v1/products/{id}".data
      = [[], "api".data, "v1".data, "products".data, "{id}".data] := by decide
  have hv : varName "{id}".data = some "id" := by decide
  have hn0 : varName [] = none := by decide
  have hn1 : varName "api".data = none := by decide
  have hn2 : varName "v1".data = none := by decide
  have hn3 : varName "products".data = none := by decide
  have hn4 : varName "search".data = none := by decide
  unfold matchTemplate at h ⊢
  rw [h1] at h
  rw [h2]
  generalize splitSlash path.data = ps at h ⊢
  rcases ps with _ | ⟨a, _ | ⟨b, _ | ⟨c, _ | ⟨d, _ | ⟨e, _ | ⟨f, ps⟩⟩⟩⟩⟩⟩ <;>
    simp only [matchSegments, hn0, hn1, hn2, hn3, hn4, hv] at h ⊢ <;>
    first
    | exact absurd rfl h
    | skip
  all_goals (split_ifs at h <;> first | exact absurd rfl h | (subst_vars; simp))

/-- No request is dispatched to `SearchProducts`. -/
theorem dispatch_NewRouter_ne_search (method path : String) (vars : List (String × String)) :
    dispatch NewRouter method path ≠ some (Handler.SearchProducts, vars) := by
  intro hd
  have e1 : "/api/v1" ++ "/products/{id}" = "/api/v1/products/{id}" := by decide
  have e2 : "/api/v1" ++ "/products/search" = "/api/v1/products/search" := by decide
  simp only [NewRouter, dispatch, e1, e2, List.mem_singleton] at hd
  by_cases hm : method = "GET"
  · cases h1 : matchTemplate "/api/v1/products/{id}" path with
    | some v => simp [h1, hm] at hd
    | none =>
      cases h2 : matchTemplate "/api/v1/products/search" path with
      | some v2 =>
        have := matchTemplate_search_shadowed path (by rw [h2]; simp)
        rw [h1] at this
        exact absurd this (by simp)
      | none =>
        simp only [h1, h2] at hd
        split at hd <;> split at hd <;> simp at hd
  · simp only [hm, if_false] at hd
    split at hd <;> split at hd <;> split at hd <;> split at hd <;> simp at hd

/-- C11 fails on the code: the request `GET /api/v1/products/search` is
dispatched to `GetProductDetails` with the route variable `id = "search"`,
because `/products/{id}` is registered before `/products/search`; on the sample
data that call ends in `ErrProductNotFound`. No request at all, whatever its
method and path, is dispatched to `SearchProducts`. -/
theorem C11_search_request_reaches_GetProductDetails :
    dispatch NewRouter "GET" "/api/v1/products/search"
        = some (Handler.GetProductDetails, [("id", "search")]) ∧
      (sample.svc.GetProductDetails service.allGoroutines "search").outcome
        = Run.done (none, some GoErr.ErrProductNotFound) ∧
      ∀ (method path : String) (vars : List (String × String)),
        dispatch NewRouter method path ≠ some (Handler.SearchProducts, vars) :=
  ⟨by decide, by decide, dispatch_NewRouter_ne_search⟩

end router

/-! ## The search handler -/

namespace handler

/-- C12: for every raw `limit` and `offset` query string, `SearchProducts` calls
the search service (which it does exactly when `q` is not blank) with a limit in
`[1, 50]` and an offset of at least 0: the limit is the parsed value when the
string is present, parses without error and lies in `[1, 50]`, and 10
otherwise; the offset is the parsed value when the string is present, parses
without error and is not negative, and 0 otherwise. The sample request with
`limit=500` and `offset=-3` is passed on as limit 10 and offset 0. -/
theorem C12_limit_and_offset_in_range (TrimSpace ToLower : String → String)
    (Atoi : String → Int × GoError) (h : ProductHandler) (r : Request) :
    (h.SearchProducts TrimSpace ToLower Atoi r).calls
        = (if TrimSpace (r.queryGet "q") = "" then []
           else [ServiceCall.Search (r.queryGet "q")
                  (ProductHandler.SearchProducts.limit Atoi (r.queryGet "limit"))
                  (ProductHandler.SearchProducts.offset Atoi (r.queryGet "offset"))]) ∧
      ProductHandler.SearchProducts.limit Atoi (r.queryGet "limit")
        = (if r.queryGet "limit" ≠ "" ∧ (Atoi (r.queryGet "limit")).2 = none ∧
              1 ≤ (Atoi (r.queryGet "limit")).1 ∧ (Atoi (r.queryGet "limit")).1 ≤ 50
           then (Atoi (r.queryGet "limit")).1 else 10) ∧
      ProductHandler.SearchProducts.offset Atoi (r.queryGet "offset")
        = (if r.queryGet "offset" ≠ "" ∧ (Atoi (r.queryGet "offset")).2 = none ∧
              0 ≤ (Atoi (r.queryGet "offset")).1
           then (Atoi (r.queryGet "offset")).1 else 0) ∧
      1 ≤ ProductHandler.SearchProducts.limit Atoi (r.queryGet "limit") ∧
      ProductHandler.SearchProducts.limit Atoi (r.queryGet "limit") ≤ 50 ∧
      0 ≤ ProductHandler.SearchProducts.offset Atoi (r.queryGet "offset") ∧
      (sample.productHandler.SearchProducts sample.trimSpace sample.toLower sample.atoi
          sample.searchRequest).calls = [ServiceCall.Search "Phones" 10 0] := by
  have hl : ∀ str : String, ProductHandler.SearchProducts.limit Atoi str
      = (if str ≠ "" ∧ (Atoi str).2 = none ∧ 1 ≤ (Atoi str).1 ∧ (Atoi str).1 ≤ 50
         then (Atoi str).1 else 10) := by
    intro str
    unfold ProductHandler.SearchProducts.limit
    by_cases h0 : str = ""
    · simp [h0]
    · by_cases h1 : (Atoi str).2 = none
      · by_cases h2 : 1 ≤ (Atoi str).1
        · by_cases h3 : (Atoi str).1 ≤ 50
          · simp [h0, h1, h2, h3, not_lt.mpr h2, not_lt.mpr h3]
          · simp [h0, h1, h2, h3, not_le.mp h3]
        · simp [h0, h1, h2, not_le.mp h2]
      · simp [h0, h1]
  have ho : ∀ str : String, ProductHandler.SearchProducts.offset Atoi str
      = (if str ≠ "" ∧ (Atoi str).2 = none ∧ 0 ≤ (Atoi str).1 then (Atoi str).1 else 0) := by
    intro str
    unfold ProductHandler.SearchProducts.offset
    by_cases h0 : str = ""
    · simp [h0]
    · by_cases h1 : (Atoi str).2 = none
      · by_cases h2 : 0 ≤ (Atoi str).1
        · simp [h0, h1, h2, not_lt.mpr h2]
        · simp [h0, h1, h2, not_le.mp h2]
      · simp [h0, h1]
  refine ⟨?_, hl _, ho _, ?_, ?_, ?_, by decide⟩
  · unfold ProductHandler.SearchProducts
    by_cases hq : TrimSpace (r.queryGet "q") = ""
    · simp [hq]
    · simp only [hq, if_false]
      split <;> rfl
  · rw [hl]; split_ifs with hc
    · exact hc.2.2.1
    · decide
  · rw [hl]; split_ifs with hc
    · exact hc.2.2.2
    · decide
  · rw [ho]; split_ifs with hc
    · exact hc.2.2
    · decide

end handler

/-! ## The orchestrator: order independence -/

namespace service

/-- Once a goroutine has panicked, nothing changes any more. -/
theorem foldl_runGoroutine_panicked (s : ProductAggregatorService) (product : model.Product)
    (productID : String) (sched : List Goroutine) (calls : List Call) :
    sched.foldl (s.runGoroutine product productID) (calls, Run.panicked)
      = (calls, Run.panicked) := by
  induction sched with
  | nil => rfl
  | cons g rest ih => simpa [List.foldl, ProductAggregatorService.runGoroutine] using ih

/-- The outcome of `fetchSeller` is a panic or a non-nil seller. -/
theorem fetchSeller_panicked_or_done (s : ProductAggregatorService) (sellerID : String) :
    (s.fetchSeller sellerID).outcome = Run.panicked ∨
      ∃ (sl : model.Seller) (e : GoError),
        (s.fetchSeller sellerID).outcome = Run.done (some sl, e) := by
  cases hg : s.sellerClient.GetByID sellerID with
  | mk v err =>
    cases err with
    | some e => exact Or.inr ⟨_, _, fetchSeller_of_error s sellerID v e hg⟩
    | none =>
      cases v with
      | none => left; simp [ProductAggregatorService.fetchSeller, hg]
      | some sl => exact Or.inr ⟨_, _, fetchSeller_of_value s sellerID sl hg⟩

/-- When `fetchSeller` panics, every order that runs the seller goroutine ends
in a panic. -/
theorem foldl_runGoroutine_of_seller_panic (s : ProductAggregatorService)
    (product : model.Product) (productID : String)
    (hp : (s.fetchSeller product.ID).outcome = Run.panicked) :
    ∀ (sched : List Goroutine), Goroutine.seller ∈ sched →
      ∀ (calls : List Call) (st : Run result),
        (sched.foldl (s.runGoroutine product productID) (calls, st)).2 = Run.panicked := by
  intro sched
  induction sched with
  | nil => intro hmem; simp at hmem
  | cons g rest ih =>
    intro hmem calls st
    cases st with
    | panicked => rw [foldl_runGoroutine_panicked]
    | done res =>
      cases g with
      | seller =>
        cases hfs : s.fetchSeller product.ID with
        | mk cs o =>
          rw [hfs] at hp
          simp only at hp
          subst hp
          simp only [List.foldl, ProductAggregatorService.runGoroutine, hfs]
          rw [foldl_runGoroutine_panicked]
      | reviews =>
        have hr : Goroutine.seller ∈ rest := by simpa using hmem
        simp only [List.foldl]
        cases hst : s.runGoroutine product productID (calls, Run.done res) Goroutine.reviews with
        | mk c st2 => exact ih hr c st2
      | questions =>
        have hr : Goroutine.seller ∈ rest := by simpa using hmem
        simp only [List.foldl]
        cases hst : s.runGoroutine product productID (calls, Run.done res) Goroutine.questions with
        | mk c st2 => exact ih hr c st2
      | related =>
        have hr : Goroutine.seller ∈ rest := by simpa using hmem
        simp only [List.foldl]
        cases hst : s.runGoroutine product productID (calls, Run.done res) Goroutine.related with
        | mk c st2 => exact ih hr c st2

/-- The outcome of `GetProductDetails` for a found product whose seller fetch
panics, for every ordering of the four goroutines. -/
theorem GetProductDetails_of_seller_panic (s : ProductAggregatorService)
    (sched : List Goroutine) (productID : String) (product : model.Product)
    (hperm : sched.Perm allGoroutines)
    (hfind : s.productRepo.FindByID productID = (some product, none))
    (hp : (s.fetchSeller product.ID).outcome = Run.panicked) :
    (s.GetProductDetails sched productID).outcome = Run.panicked := by
  have hmem : Goroutine.seller ∈ sched := hperm.mem_iff.mpr (by simp [allGoroutines])
  have h := foldl_runGoroutine_of_seller_panic s product productID hp sched hmem
    [Call.FindByID productID] (Run.done {})
  cases hf : sched.foldl (s.runGoroutine product productID)
      ([Call.FindByID productID], Run.done {}) with
  | mk calls st =>
    rw [hf] at h
    simp only at h
    subst h
    simp only [ProductAggregatorService.GetProductDetails, hfind, hf]

/-- C13: for every id and every collaborators (each answering a given call the
same way both times, as an unchanged dataset does), two runs of
`GetProductDetails` with that id have the same outcome: the same error, or the
same view field for field, whatever the orders in which the four goroutines
complete in the one run and in the other. -/
theorem C13_same_result_in_every_order (s : ProductAggregatorService)
    (sched₁ sched₂ : List Goroutine) (productID : String)
    (h₁ : sched₁.Perm allGoroutines) (h₂ : sched₂.Perm allGoroutines) :
    (s.GetProductDetails sched₁ productID).outcome
      = (s.GetProductDetails sched₂ productID).outcome := by
  cases hf : s.productRepo.FindByID productID with
  | mk v err =>
    cases err with
    | some e => simp [ProductAggregatorService.GetProductDetails, hf]
    | none =>
      cases v with
      | none => simp [ProductAggregatorService.GetProductDetails, hf]
      | some product =>
        rcases fetchSeller_panicked_or_done s product.ID with hp | ⟨sl, e, hs⟩
        · rw [GetProductDetails_of_seller_panic s sched₁ productID product h₁ hf hp,
            GetProductDetails_of_seller_panic s sched₂ productID product h₂ hf hp]
        · rw [GetProductDetails_of_found s sched₁ productID product sl e h₁ hf hs,
            GetProductDetails_of_found s sched₂ productID product sl e h₂ hf hs]

/-- C13, at the sample service: the goroutines completing in start order and in
the reverse order give the same outcome for `P1`. -/
theorem C13_same_result_in_every_order_witness :
    (sample.svc.GetProductDetails allGoroutines "P1").outcome
      = (sample.svc.GetProductDetails allGoroutines.reverse "P1").outcome :=
  C13_same_result_in_every_order sample.svc allGoroutines allGoroutines.reverse "P1"
    (List.Perm.refl _) (List.reverse_perm _)

end service

/-! ## The file-backed question feed -/

namespace service

/-- C15: for every question file, product id and limit of at least 1 (a Go
`int`, so below `2^63`), `QuestionRepository.GetByProductID` returns exactly the
first `min limit n` questions, in file order, of the `n` questions whose
`ProductID` equals the id, with a nil error; so when the question collaborator
is the file-backed feed, the `Questions` of the view are the first 10 questions
of the requested product: at most 10 entries, all referring to that product. -/
theorem C15_question_feed_first_matches (r : json.QuestionRepository) (id : String)
    (limit : Int) (s : ProductAggregatorService) (sched : List Goroutine)
    (productID : String) (product : model.Product)
    (h1 : 1 ≤ limit) (hlim : limit < 9223372036854775808)
    (hfeed : s.questionClient = r.toPort)
    (hperm : sched.Perm allGoroutines)
    (hfind : s.productRepo.FindByID productID = (some product, none))
    (hseller : (s.sellerClient.GetByID product.ID).1 ≠ none ∨
      (s.sellerClient.GetByID product.ID).2 ≠ none) :
    r.GetByProductID id limit
        = ((r.questions.filter (fun q => decide (q.ProductID = id))).take
            (min limit.toNat (r.questions.filter (fun q => decide (q.ProductID = id))).length),
          none) ∧
      ∃ view : model.ProductDetails,
        (s.GetProductDetails sched productID).outcome = Run.done (some view, none) ∧
        view.Questions
          = (r.questions.filter (fun q => decide (q.ProductID = productID))).take 10 ∧
        view.Questions.length ≤ 10 ∧
        ∀ q ∈ view.Questions, q.ProductID = productID := by
  constructor
  · rw [json.QuestionRepository.GetByProductID_eq_take r id limit h1 hlim]
    congr 1
    rw [List.take_eq_take]
    simp
  · obtain ⟨sl, h⟩ := GetProductDetails_view s sched productID product hperm hfind hseller
    have hq : (s.questionClient.GetByProductID productID 10).1
        = (r.questions.filter (fun q => decide (q.ProductID = productID))).take 10 := by
      rw [hfeed]
      simp only [json.QuestionRepository.toPort,
        json.QuestionRepository.GetByProductID_eq_take r productID 10 (by decide) (by decide)]
      rfl
    refine ⟨_, h, hq, ?_, ?_⟩
    · simp only [hq]
      simp
    · intro q hmem
      simp only [hq] at hmem
      have := List.mem_of_mem_take hmem
      simpa using (List.mem_filter.mp this).2

/-- C15, at the sample question file, which has twelve questions on `P1`: a
limit of 3 gives three of them, and the view of `P1` carries ten. -/
theorem C15_question_feed_first_matches_witness :
    ((json.QuestionRepository.mk sample.questions).GetByProductID "P1" 3).1.length = 3 ∧
      ∃ view : model.ProductDetails,
        (sample.svc.GetProductDetails allGoroutines "P1").outcome = Run.done (some view, none) ∧
        view.Questions.length = 10 :=
  ⟨by decide,
    (C15_question_feed_first_matches (json.QuestionRepository.mk sample.questions) "P1" 3
      sample.svc allGoroutines "P1" (sample.mkProduct "P1" "phones" 50000)
      (by decide) (by decide) rfl (List.Perm.refl _) (by rfl) (by decide)).2.elim
      (fun view h => ⟨view, h.1, by rw [h.2.1]; decide⟩)⟩

end service

/-! ## The seller lookup key -/

namespace json

/-- Storing sellers that do not carry the id `k` leaves the entry of `k` as it was. -/
theorem SellerRepository.load_loop_absent (k : String) :
    ∀ (l : List model.Seller) (m : String → Option model.Seller),
      (∀ sl ∈ l, sl.ID ≠ k) →
      l.foldl (fun m s => fun k => if k = s.ID then some s else m k) m k = m k := by
  intro l
  induction l with
  | nil => intro m _; rfl
  | cons x rest ih =>
    intro m hl
    simp only [List.foldl]
    rw [ih _ (fun sl hsl => hl sl (List.mem_cons_of_mem _ hsl))]
    have hx : k ≠ x.ID := fun e => hl x (List.mem_cons_self _ _) e.symm
    simp [hx]

/-- A seller id that no record of the file carries is not in the loaded map. -/
theorem SellerRepository.load_absent (sellers : List model.Seller) (k : String)
    (h : ∀ sl ∈ sellers, sl.ID ≠ k) :
    (SellerRepository.load sellers).sellers k = none := by
  simp [SellerRepository.load, SellerRepository.load_loop_absent k sellers _ h]

/-- A seller id that some record of the file carries is mapped to such a record. -/
theorem SellerRepository.load_present (sellers : List model.Seller) (k : String)
    (h : ∃ sl ∈ sellers, sl.ID = k) :
    ∃ sl ∈ sellers, sl.ID = k ∧ (SellerRepository.load sellers).sellers k = some sl := by
  have key : ∀ (l : List model.Seller) (m : String → Option model.Seller),
      (∃ sl ∈ l, sl.ID = k) →
      ∃ sl ∈ l, sl.ID = k ∧
        l.foldl (fun m s => fun k => if k = s.ID then some s else m k) m k = some sl := by
    intro l
    induction l with
    | nil => intro m hl; obtain ⟨sl, hsl, _⟩ := hl; simp at hsl
    | cons x rest ih =>
      intro m hl
      by_cases hrest : ∃ sl ∈ rest, sl.ID = k
      · obtain ⟨sl, hsl, hid, hval⟩ := ih (fun k => if k = x.ID then some x else m k) hrest
        exact ⟨sl, List.mem_cons_of_mem _ hsl, hid, by simpa [List.foldl] using hval⟩
      · have hx : x.ID = k := by
          obtain ⟨sl, hsl, hid⟩ := hl
          rcases List.mem_cons.mp hsl with e | e
          · rw [← e]; exact hid
          · exact absurd ⟨sl, e, hid⟩ hrest
        have hnone : ∀ sl ∈ rest, sl.ID ≠ k := fun sl hsl e => hrest ⟨sl, hsl, e⟩
        refine ⟨x, List.mem_cons_self _ _, hx, ?_⟩
        simp only [List.foldl]
        rw [SellerRepository.load_loop_absent k rest _ hnone]
        simp [hx]
  obtain ⟨sl, hsl, hid, hval⟩ := key sellers (fun _ => none) h
  exact ⟨sl, hsl, hid, by simpa [SellerRepository.load] using hval⟩

end json

namespace service

/-- Every call already made is still in the trace after more goroutines ran. -/
theorem foldl_runGoroutine_calls_mono (s : ProductAggregatorService) (product : model.Product)
    (productID : String) (c : Call) :
    ∀ (sched : List Goroutine) (calls : List Call) (st : Run result), c ∈ calls →
      c ∈ (sched.foldl (s.runGoroutine product productID) (calls, st)).1 := by
  intro sched
  induction sched with
  | nil => intro calls st hc; exact hc
  | cons g rest ih =>
    intro calls st hc
    simp only [List.foldl]
    cases hst : s.runGoroutine product productID (calls, st) g with
    | mk calls2 st2 =>
      apply ih
      have : calls2 = (s.runGoroutine product productID (calls, st) g).1 := by rw [hst]
      rw [this]
      cases st with
      | panicked => simpa [ProductAggregatorService.runGoroutine] using hc
      | done res =>
        cases g with
        | seller =>
          simp only [ProductAggregatorService.runGoroutine]
          split <;> simp [hc]
        | reviews => simp [ProductAggregatorService.runGoroutine, hc]
        | questions => simp [ProductAggregatorService.runGoroutine, hc]
        | related => simp [ProductAggregatorService.runGoroutine, hc]

/-- The one call that `fetchSeller` makes. -/
theorem fetchSeller_calls (s : ProductAggregatorService) (sellerID : String) :
    (s.fetchSeller sellerID).calls = [Call.SellerGetByID sellerID] := by
  unfold ProductAggregatorService.fetchSeller
  split <;> rfl

/-- An order that runs the seller goroutine from a live state calls the seller
collaborator with the id of the product. -/
theorem foldl_runGoroutine_seller_called (s : ProductAggregatorService)
    (product : model.Product) (productID : String) :
    ∀ (sched : List Goroutine), Goroutine.seller ∈ sched →
      ∀ (calls : List Call) (res : result),
        Call.SellerGetByID product.ID
          ∈ (sched.foldl (s.runGoroutine product productID) (calls, Run.done res)).1 := by
  intro sched
  induction sched with
  | nil => intro hmem; simp at hmem
  | cons g rest ih =>
    intro hmem calls res
    cases g with
    | seller =>
      simp only [List.foldl]
      cases hst : s.runGoroutine product productID (calls, Run.done res) Goroutine.seller with
      | mk calls2 st2 =>
        apply foldl_runGoroutine_calls_mono
        have h1 : calls2 = (s.runGoroutine product productID (calls, Run.done res)
            Goroutine.seller).1 := by rw [hst]
        have h2 := fetchSeller_calls s product.ID
        rw [h1]
        simp only [ProductAggregatorService.runGoroutine]
        cases hfs : s.fetchSeller product.ID with
        | mk cs o =>
          rw [hfs] at h2
          simp only at h2
          subst h2
          cases o with
          | panicked => simp
          | done v => simp
    | reviews =>
      have hr : Goroutine.seller ∈ rest := by simpa using hmem
      simpa [List.foldl, ProductAggregatorService.runGoroutine,
        ProductAggregatorService.fetchReviews] using ih hr _ _
    | questions =>
      have hr : Goroutine.seller ∈ rest := by simpa using hmem
      simpa [List.foldl, ProductAggregatorService.runGoroutine,
        ProductAggregatorService.fetchQuestions] using ih hr _ _
    | related =>
      have hr : Goroutine.seller ∈ rest := by simpa using hmem
      simpa [List.foldl, ProductAggregatorService.runGoroutine,
        ProductAggregatorService.fetchRelated] using ih hr _ _

/-- Every seller call in the trace either was there before or asks for the id
of the product. -/
theorem foldl_runGoroutine_seller_calls (s : ProductAggregatorService)
    (product : model.Product) (productID : String) (x : String) :
    ∀ (sched : List Goroutine) (calls : List Call) (st : Run result),
      Call.SellerGetByID x ∈ (sched.foldl (s.runGoroutine product productID) (calls, st)).1 →
      Call.SellerGetByID x ∈ calls ∨ x = product.ID := by
  intro sched
  induction sched with
  | nil => intro calls st h; exact Or.inl h
  | cons g rest ih =>
    intro calls st h
    simp only [List.foldl] at h
    cases hst : s.runGoroutine product productID (calls, st) g with
    | mk calls2 st2 =>
      rw [hst] at h
      rcases ih calls2 st2 h with h2 | h2
      · have h1 : calls2 = (s.runGoroutine product productID (calls, st) g).1 := by rw [hst]
        rw [h1] at h2
        cases st with
        | panicked => left; simpa [ProductAggregatorService.runGoroutine] using h2
        | done res =>
          cases g with
          | seller =>
            have hc := fetchSeller_calls s product.ID
            simp only [ProductAggregatorService.runGoroutine] at h2
            cases hfs : s.fetchSeller product.ID with
            | mk cs o =>
              rw [hfs] at hc h2
              simp only at hc
              subst hc
              cases o with
              | panicked => simpa using h2
              | done v => simpa using h2
          | reviews =>
            left
            simpa [ProductAggregatorService.runGoroutine,
              ProductAggregatorService.fetchReviews] using h2
          | questions =>
            left
            simpa [ProductAggregatorService.runGoroutine,
              ProductAggregatorService.fetchQuestions] using h2
          | related =>
            left
            simpa [ProductAggregatorService.runGoroutine,
              ProductAggregatorService.fetchRelated] using h2
      · exact Or.inr h2

end service

namespace service

/-- The call trace of `GetProductDetails` for a found product is the trace of
its goroutines, after the initial `FindByID`. -/
theorem GetProductDetails_calls_of_found (s : ProductAggregatorService) (sched : List Goroutine)
    (productID : String) (product : model.Product)
    (hfind : s.productRepo.FindByID productID = (some product, none)) :
    (s.GetProductDetails sched productID).calls
      = (sched.foldl (s.runGoroutine product productID)
          ([Call.FindByID productID], Run.done {})).1 := by
  simp only [ProductAggregatorService.GetProductDetails, hfind]
  cases hf : sched.foldl (s.runGoroutine product productID)
      ([Call.FindByID productID], Run.done {}) with
  | mk calls st =>
    cases st with
    | panicked => rfl
    | done res =>
      simp only
      split <;> rfl

/-- C16: when the primary entity `P` is found, `GetProductDetails` calls the
seller collaborator with `P.ID`, the product's own id, and with no other id; so
when the seller collaborator is the file-backed store loaded from a seller file,
the view carries a record of that file whose `ID` equals the product's id if
there is one, and the fixed fallback seller if there is none. -/
theorem C16_seller_looked_up_by_product_id (sellers : List model.Seller)
    (s : ProductAggregatorService) (sched : List Goroutine)
    (productID : String) (product : model.Product)
    (hstore : s.sellerClient = (json.SellerRepository.load sellers).toPort)
    (hperm : sched.Perm allGoroutines)
    (hfind : s.productRepo.FindByID productID = (some product, none)) :
    Call.SellerGetByID product.ID ∈ (s.GetProductDetails sched productID).calls ∧
      (∀ x : String, Call.SellerGetByID x ∈ (s.GetProductDetails sched productID).calls →
        x = product.ID) ∧
      ∃ view : model.ProductDetails,
        (s.GetProductDetails sched productID).outcome = Run.done (some view, none) ∧
        ((∃ sl ∈ sellers, sl.ID = product.ID) →
          view.Seller ∈ sellers ∧ view.Seller.ID = product.ID) ∧
        ((¬ ∃ sl ∈ sellers, sl.ID = product.ID) →
          view.Seller = { ID := "default", Nickname := "Vendedor", ReputationLevel := "green",
                          TotalSales := 0, ReputationScore := 0, YearsActive := 0,
                          IsOfficialStore := false }) := by
  have hmem : Goroutine.seller ∈ sched := hperm.mem_iff.mpr (by simp [allGoroutines])
  refine ⟨?_, ?_, ?_⟩
  · rw [GetProductDetails_calls_of_found s sched productID product hfind]
    exact foldl_runGoroutine_seller_called s product productID sched hmem _ _
  · intro x hx
    rw [GetProductDetails_calls_of_found s sched productID product hfind] at hx
    rcases foldl_runGoroutine_seller_calls s product productID x sched _ _ hx with h | h
    · simp at h
    · exact h
  · by_cases hex : ∃ sl ∈ sellers, sl.ID = product.ID
    · obtain ⟨sl, hsl, hid, hval⟩ := json.SellerRepository.load_present sellers product.ID hex
      have hg : s.sellerClient.GetByID product.ID = (some sl, none) := by
        rw [hstore]
        simp [json.SellerRepository.toPort, json.SellerRepository.GetByID, hval]
      exact ⟨_, GetProductDetails_of_found s sched productID product _ _ hperm hfind
        (fetchSeller_of_value s product.ID sl hg), fun _ => ⟨hsl, hid⟩, fun hn => absurd hex hn⟩
    · have hval := json.SellerRepository.load_absent sellers product.ID
        (fun sl hsl e => hex ⟨sl, hsl, e⟩)
      have hg : s.sellerClient.GetByID product.ID
          = (none, some (GoErr.New "seller not found")) := by
        rw [hstore]
        simp [json.SellerRepository.toPort, json.SellerRepository.GetByID, hval]
      exact ⟨_, GetProductDetails_of_found s sched productID product _ _ hperm hfind
        (fetchSeller_of_error s product.ID none _ hg), fun h => absurd h hex, fun _ => rfl⟩

/-- C16, at the sample service: the seller file has a record under the id `P1`,
which the view of the product `P1` carries. -/
theorem C16_seller_looked_up_by_product_id_witness :
    Call.SellerGetByID "P1" ∈ (sample.svc.GetProductDetails allGoroutines "P1").calls ∧
      ∃ view : model.ProductDetails,
        (sample.svc.GetProductDetails allGoroutines "P1").outcome = Run.done (some view, none) ∧
        view.Seller ∈ sample.sellers :=
  ⟨(C16_seller_looked_up_by_product_id sample.sellers sample.svc allGoroutines "P1"
      (sample.mkProduct "P1" "phones" 50000) rfl (List.Perm.refl _) (by rfl)).1,
    (C16_seller_looked_up_by_product_id sample.sellers sample.svc allGoroutines "P1"
      (sample.mkProduct "P1" "phones" 50000) rfl (List.Perm.refl _) (by rfl)).2.2.elim
      (fun view h => ⟨view, h.1, (h.2.1 ⟨_, List.mem_cons_self _ _, rfl⟩).1⟩)⟩

end service

/-! ## The file-backed product store: search and count -/

namespace json

/-- The match loop of `Search` collects the matching products, in file order. -/
theorem ProductRepository.Search_loop_eq (ToLower : String → String) (keyword : String) :
    ∀ (ps acc : List model.Product),
      ps.foldl (fun results p =>
          if ProductRepository.matches ToLower p keyword then results ++ [p] else results) acc
        = acc ++ ps.filter (fun p => ProductRepository.matches ToLower p keyword) := by
  intro ps
  induction ps with
  | nil => intro acc; simp
  | cons x rest ih =>
    intro acc
    by_cases hx : ProductRepository.matches ToLower x keyword = true
    · simp [List.foldl, hx, ih]
    · simp [List.foldl, hx, ih]

/-- The count loop of `Count` counts the matching products, as long as the
counter stays in the range of an `int`. -/
theorem ProductRepository.Count_loop_eq (ToLower : String → String) (keyword : String) :
    ∀ (ps : List model.Product) (c : Int), 0 ≤ c →
      c + (ps.length : Int) < 9223372036854775808 →
      ps.foldl (fun count p =>
          if ProductRepository.matches ToLower p keyword then wrapInt64 (count + 1) else count) c
        = c + ((ps.filter (fun p => ProductRepository.matches ToLower p keyword)).length : Int) := by
  intro ps
  induction ps with
  | nil => intro c _ _; simp
  | cons x rest ih =>
    intro c h0 hfit
    have hlen : ((x :: rest).length : Int) = (rest.length : Int) + 1 := by simp
    rw [hlen] at hfit
    by_cases hx : ProductRepository.matches ToLower x keyword = true
    · have hw : wrapInt64 (c + 1) = c + 1 := wrapInt64_of_fits _ (by omega) (by omega)
      simp only [List.foldl, hx, if_true, hw]
      rw [ih (c + 1) (by omega) (by omega)]
      simp [hx]
      omega
    · have hx' : ProductRepository.matches ToLower x keyword = false := by simpa using hx
      simp only [List.foldl, hx', Bool.false_eq_true, if_false]
      rw [ih c h0 (by omega)]
      simp [hx']

/-- What `Search` computes, with `results` written as a filter. -/
theorem ProductRepository.Search_unfold (ToLower : String → String) (r : ProductRepository)
    (keyword : String) (limit offset : Int) :
    r.Search ToLower keyword limit offset
      = (if offset > len (r.products.filter
              (fun p => ProductRepository.matches ToLower p (ToLower keyword)))
         then Run.done ([], none)
         else
           if 0 ≤ offset ∧ offset ≤
               (if wrapInt64 (offset + limit) > len (r.products.filter
                    (fun p => ProductRepository.matches ToLower p (ToLower keyword)))
                then len (r.products.filter
                    (fun p => ProductRepository.matches ToLower p (ToLower keyword)))
                else wrapInt64 (offset + limit))
           then Run.done (((r.products.filter
                  (fun p => ProductRepository.matches ToLower p (ToLower keyword))).drop
                    offset.toNat).take
                  ((if wrapInt64 (offset + limit) > len (r.products.filter
                        (fun p => ProductRepository.matches ToLower p (ToLower keyword)))
                    then len (r.products.filter
                        (fun p => ProductRepository.matches ToLower p (ToLower keyword)))
                    else wrapInt64 (offset + limit)) - offset).toNat, none)
           else Run.panicked) := by
  simp only [ProductRepository.Search, ProductRepository.Search_loop_eq, List.nil_append]

/-- Whatever the limit and offset, a page that `Search` returns is no longer
than the list of all matches. -/
theorem ProductRepository.Search_length_le (ToLower : String → String) (r : ProductRepository)
    (keyword : String) (limit offset : Int) (products : List model.Product) (err : GoError)
    (h : r.Search ToLower keyword limit offset = Run.done (products, err)) :
    products.length ≤ (r.products.filter
      (fun p => ProductRepository.matches ToLower p (ToLower keyword))).length := by
  rw [ProductRepository.Search_unfold] at h
  have hdrop : ∀ (n m : Nat) (l : List model.Product), ((l.drop n).take m).length ≤ l.length :=
    fun n m l => by simp only [List.length_take, List.length_drop]; omega
  split_ifs at h <;> simp only [Run.done.injEq, Prod.mk.injEq] at h <;> rw [← h.1]
  · simp
  · exact hdrop _ _ _
  · exact hdrop _ _ _

end json

namespace json

/-- For an offset and a limit in the range the handler enforces, `Search` returns
the page of the matches: the first `offset` dropped, at most `limit` kept. -/
theorem ProductRepository.Search_eq_page (ToLower : String → String) (r : ProductRepository)
    (keyword : String) (limit offset : Int)
    (h0 : 0 ≤ offset) (hoff : offset < 9223372036854775808)
    (h1 : 1 ≤ limit) (h50 : limit ≤ 50)
    (hlen : (r.products.length : Int) + 50 < 9223372036854775808) :
    r.Search ToLower keyword limit offset
      = Run.done (((r.products.filter
          (fun p => ProductRepository.matches ToLower p (ToLower keyword))).drop
            offset.toNat).take limit.toNat, none) := by
  rw [ProductRepository.Search_unfold]
  generalize hL : r.products.filter
    (fun p => ProductRepository.matches ToLower p (ToLower keyword)) = L
  have hle : L.length ≤ r.products.length := by
    rw [← hL]; exact List.length_filter_le _ _
  have hlenL : len L = (L.length : Int) := rfl
  rw [hlenL]
  by_cases hgt : offset > (L.length : Int)
  · have hd : L.drop offset.toNat = [] := List.drop_eq_nil_of_le (by omega)
    simp [hgt, hd]
  · have hw : wrapInt64 (offset + limit) = offset + limit :=
      wrapInt64_of_fits _ (by omega) (by omega)
    rw [hw]
    by_cases hend : offset + limit > (L.length : Int)
    · have hc : 0 ≤ offset ∧ offset ≤ (L.length : Int) := ⟨h0, by omega⟩
      simp only [hgt, hend, if_true, if_false, hc, and_self]
      congr 2
      rw [List.take_eq_take, List.length_drop]
      omega
    · have hc : 0 ≤ offset ∧ offset ≤ offset + limit := ⟨h0, by omega⟩
      simp only [hgt, hend, if_false, hc, and_self, if_true]
      congr 3
      omega

/-- C17: for every product file (of a length that fits a Go slice, so that
`len + 50` is below `2^63`), keyword, offset of at least 0 (a Go `int`) and limit
between 1 and 50, with `offset + limit` computed modulo `2^64`, `Search` does
not panic on its slice expression and returns, with a nil error, the matching
products in file order with the first `offset` of them dropped and at most
`limit` of the rest kept; the page is empty when the offset is at or beyond the
number of matches. -/
theorem C17_search_page_in_range (ToLower : String → String) (r : ProductRepository)
    (keyword : String) (limit offset : Int)
    (h0 : 0 ≤ offset) (hoff : offset < 9223372036854775808)
    (h1 : 1 ≤ limit) (h50 : limit ≤ 50)
    (hlen : (r.products.length : Int) + 50 < 9223372036854775808) :
    r.Search ToLower keyword limit offset
        = Run.done (((spec.matchesOf ToLower r.products keyword).drop offset.toNat).take
            limit.toNat, none) ∧
      (((spec.matchesOf ToLower r.products keyword).length : Int) ≤ offset →
        r.Search ToLower keyword limit offset = Run.done ([], none)) := by
  have hmain := ProductRepository.Search_eq_page ToLower r keyword limit offset h0 hoff h1 h50 hlen
  refine ⟨hmain, ?_⟩
  intro hbeyond
  rw [hmain]
  have hd : (spec.matchesOf ToLower r.products keyword).drop offset.toNat = [] :=
    List.drop_eq_nil_of_le (by omega)
  exact (congrArg (fun l => Run.done (List.take limit.toNat l, (none : GoError))) hd).trans
    (by simp)

/-- C17, at the sample product file: the second page of size 2 of the six
phones, and an empty page at offset 6. -/
theorem C17_search_page_in_range_witness :
    (sample.productRepo.Search sample.toLower "PHONES" 2 2)
        = Run.done ([sample.mkProduct "P3" "phones" 10, sample.mkProduct "P4" "phones" 20], none) ∧
      (sample.productRepo.Search sample.toLower "PHONES" 2 6) = Run.done ([], none) :=
  ⟨(C17_search_page_in_range sample.toLower sample.productRepo "PHONES" 2 2
      (by decide) (by decide) (by decide) (by decide) (by decide)).1.trans (by rfl),
    (C17_search_page_in_range sample.toLower sample.productRepo "PHONES" 2 6
      (by decide) (by decide) (by decide) (by decide) (by decide)).2 (by decide)⟩

end json

/-! ## The review part of the view, with the file-backed review store -/

namespace service

/-- C18, as stated, fails twice. With a review file whose two ratings of `P1`
are `2^63 - 1` and `1`, the `AverageRating` of the view of `P1` is `-2^62`, not
the mean `2^62` of the ratings in its `Reviews`. With a review file whose three
ratings of `P1` are 1, 2 and 2, the `AverageRating` is the `float64`
`7505999378950827 / 2^52`, not the mean `5/3`. -/
theorem C18_view_average_counterexample :
    (∃ view : model.ProductDetails,
      (sample.overflowSvc.GetProductDetails allGoroutines "P1").outcome
        = Run.done (some view, none) ∧
      view.Reviews = sample.overflowReviews ∧
      view.AverageRating = -4611686018427387904 ∧
      spec.meanRating view.Reviews = 4611686018427387904 ∧
      view.AverageRating ≠ spec.meanRating view.Reviews) ∧
    (∃ view : model.ProductDetails,
      (sample.roundingSvc.GetProductDetails allGoroutines "P1").outcome
        = Run.done (some view, none) ∧
      view.Reviews = sample.roundingReviews ∧
      view.AverageRating = 7505999378950827 / 4503599627370496 ∧
      spec.meanRating view.Reviews = 5 / 3 ∧
      view.AverageRating ≠ spec.meanRating view.Reviews) := by
  have h1 : ((json.ReviewRepository.mk sample.overflowReviews).GetAverageRating "P1").1
      = -4611686018427387904 := by
    rw [json.ReviewRepository.GetAverageRating_eq]
    have hl : (spec.reviewsOf (json.ReviewRepository.mk sample.overflowReviews).reviews
        "P1").length = 2 := by decide
    have hsum : wrapInt64 ((spec.reviewsOf (json.ReviewRepository.mk
        sample.overflowReviews).reviews "P1").map (fun review => review.Rating)).sum
        = -9223372036854775808 := by decide
    simp only [hl, hsum, float64Div, float64OfInt]
    have ha : roundFloat64 ((-9223372036854775808 : Int) : ℚ) = -9223372036854775808 := by
      have := roundFloat64_of_exact_binade (-9223372036854775808) 63 (-4503599627370496)
        (by norm_num) (by norm_num) (by norm_num [abs_of_neg]) (by norm_num [abs_of_neg])
        (by norm_num)
      simpa using this
    have hb : roundFloat64 (((2 : Nat) : Int) : ℚ) = 2 := by
      simpa using roundFloat64_intCast 2 (by norm_num) (by norm_num)
    rw [ha, hb]
    have hc := roundFloat64_of_exact_binade (-9223372036854775808 / 2) 62 (-4503599627370496)
      (by norm_num) (by norm_num) (by norm_num [abs_of_neg]) (by norm_num [abs_of_neg])
      (by norm_num)
    simp only [hc]
    norm_num
  have h2 : spec.meanRating sample.overflowReviews = 4611686018427387904 := by
    simp [spec.meanRating, sample.overflowReviews, sample.mkReview]
    norm_num
  have h3 : ((json.ReviewRepository.mk sample.roundingReviews).GetAverageRating "P1").1
      = 7505999378950827 / 4503599627370496 := by
    rw [json.ReviewRepository.GetAverageRating_of_small _ _ (by decide) (by decide) (by decide)]
    have hm : spec.meanRating (spec.reviewsOf
        (json.ReviewRepository.mk sample.roundingReviews).reviews "P1") = 5 / 3 := by
      simp [spec.meanRating, spec.reviewsOf, sample.roundingReviews, sample.mkReview]
    simp only [hm]
    rw [roundFloat64_of_pos (5 / 3) 0 7505999378950827 (by norm_num) (by norm_num)
      (by norm_num) (by norm_num)
      (roundHalfEven_of_gt _ 7505999378950826 (by norm_num) (by norm_num))]
    norm_num
  have h4 : spec.meanRating sample.roundingReviews = 5 / 3 := by
    simp [spec.meanRating, sample.roundingReviews, sample.mkReview]
  constructor
  · refine ⟨_, GetProductDetails_of_found sample.overflowSvc allGoroutines "P1"
      (sample.mkProduct "P1" "phones" 50000) _ _ (List.Perm.refl _) (by rfl)
      (fetchSeller_of_value _ _ _ (by rfl)), by rfl, h1, h2, ?_⟩
    show ((json.ReviewRepository.mk sample.overflowReviews).GetAverageRating "P1").1
      ≠ spec.meanRating sample.overflowReviews
    rw [h1, h2]
    norm_num
  · refine ⟨_, GetProductDetails_of_found sample.roundingSvc allGoroutines "P1"
      (sample.mkProduct "P1" "phones" 50000) _ _ (List.Perm.refl _) (by rfl)
      (fetchSeller_of_value _ _ _ (by rfl)), by rfl, h3, h4, ?_⟩
    show ((json.ReviewRepository.mk sample.roundingReviews).GetAverageRating "P1").1
      ≠ spec.meanRating sample.roundingReviews
    rw [h3, h4]
    norm_num

/-- C18, amended: with the file-backed review store, when the primary entity is
found, the `Reviews` of the view is exactly the sub-sequence, in file order and
unbounded, of the reviews whose `ProductID` equals `id`, `TotalReviews` is the
length of `Reviews`, and `AverageRating` is 0 when `Reviews` is empty and
otherwise the `float64` quotient of the Go `int` sum of the ratings in `Reviews`
(computed modulo `2^64`) by their number; when that sum and that number are at
most `2^53` in magnitude, `AverageRating` is the mean of the ratings in
`Reviews` rounded to the nearest `float64`, ties to even. -/
theorem C18_view_reviews_and_summary (r : json.ReviewRepository)
    (s : ProductAggregatorService) (sched : List Goroutine)
    (productID : String) (product : model.Product)
    (hstore : s.reviewClient = r.toPort)
    (hperm : sched.Perm allGoroutines)
    (hfind : s.productRepo.FindByID productID = (some product, none))
    (hseller : (s.sellerClient.GetByID product.ID).1 ≠ none ∨
      (s.sellerClient.GetByID product.ID).2 ≠ none) :
    ∃ view : model.ProductDetails,
      (s.GetProductDetails sched productID).outcome = Run.done (some view, none) ∧
      view.Reviews = spec.reviewsOf r.reviews productID ∧
      view.TotalReviews = (view.Reviews.length : Int) ∧
      view.AverageRating
        = (if view.Reviews.length = 0 then 0
           else float64Div
             (float64OfInt (wrapInt64 (view.Reviews.map (fun review => review.Rating)).sum))
             (float64OfInt (view.Reviews.length : Int))) ∧
      (-9007199254740992 ≤ (view.Reviews.map (fun review => review.Rating)).sum →
        (view.Reviews.map (fun review => review.Rating)).sum ≤ 9007199254740992 →
        (view.Reviews.length : Int) ≤ 9007199254740992 →
        view.AverageRating = roundFloat64 (spec.meanRating view.Reviews)) := by
  obtain ⟨sl, h⟩ := GetProductDetails_view s sched productID product hperm hfind hseller
  refine ⟨_, h, ?_, ?_, ?_, ?_⟩
  · simp only [hstore, json.ReviewRepository.toPort,
      json.ReviewRepository.GetByProductID_eq_reviewsOf]
  · simp only [hstore, json.ReviewRepository.toPort,
      json.ReviewRepository.GetByProductID_eq_reviewsOf,
      json.ReviewRepository.GetTotalCount_eq_length]
  · simp only [hstore, json.ReviewRepository.toPort,
      json.ReviewRepository.GetByProductID_eq_reviewsOf,
      json.ReviewRepository.GetAverageRating_eq]
  · simp only [hstore, json.ReviewRepository.toPort,
      json.ReviewRepository.GetByProductID_eq_reviewsOf]
    intro h1 h2 h3
    rw [json.ReviewRepository.GetAverageRating_of_small r productID h1 h2 h3]

/-- C18 amended, at the sample service: the view of `P1` has the three reviews
of `P1`, a total of 3 and their mean, rounded to `float64`, as average. -/
theorem C18_view_reviews_and_summary_witness :
    ∃ view : model.ProductDetails,
      (sample.svc.GetProductDetails allGoroutines "P1").outcome = Run.done (some view, none) ∧
      view.Reviews.map (fun review => review.ID) = ["R1", "R3", "R4"] ∧
      view.TotalReviews = 3 ∧
      view.AverageRating = roundFloat64 (spec.meanRating view.Reviews) :=
  (C18_view_reviews_and_summary (json.ReviewRepository.mk sample.reviews) sample.svc
    allGoroutines "P1" (sample.mkProduct "P1" "phones" 50000) rfl (List.Perm.refl _)
    (by rfl) (by decide)).elim
    (fun view h => ⟨view, h.1, by rw [h.2.1]; decide, by rw [h.2.2.1, h.2.1]; decide,
      h.2.2.2.2 (by rw [h.2.1]; decide) (by rw [h.2.1]; decide) (by rw [h.2.1]; decide)⟩)

end service

/-! ## The search service: the total and the page -/

namespace json

/-- `Count` returns the number of matching products. -/
theorem ProductRepository.Count_eq_length (ToLower : String → String) (r : ProductRepository)
    (keyword : String) (hlen : (r.products.length : Int) < 9223372036854775808) :
    r.Count ToLower keyword
      = (((spec.matchesOf ToLower r.products keyword).length : Int), none) := by
  have h := ProductRepository.Count_loop_eq ToLower (ToLower keyword) r.products 0 (le_refl 0)
    (by omega)
  simp only [ProductRepository.Count, h, zero_add]
  rfl

/-- Asked for everything from offset 0, `Search` returns the whole list of
matches: the list that it otherwise cuts a page from. -/
theorem ProductRepository.Search_all (ToLower : String → String) (r : ProductRepository)
    (keyword : String) (hlen : (r.products.length : Int) < 9223372036854775808) :
    r.Search ToLower keyword (len r.products) 0
      = Run.done (spec.matchesOf ToLower r.products keyword, none) := by
  rw [ProductRepository.Search_unfold]
  show (if (0 : Int) > len (spec.matchesOf ToLower r.products keyword) then _ else _) = _
  generalize hL : spec.matchesOf ToLower r.products keyword = L
  have hL' : r.products.filter
      (fun p => ProductRepository.matches ToLower p (ToLower keyword)) = L := hL
  simp only [hL']
  have hle : L.length ≤ r.products.length := by
    rw [← hL]; exact List.length_filter_le _ _
  have hlenL : len L = (L.length : Int) := rfl
  have hlenP : len r.products = (r.products.length : Int) := rfl
  rw [hlenL, hlenP]
  have hw : wrapInt64 (0 + (r.products.length : Int)) = (r.products.length : Int) := by
    rw [zero_add]
    exact wrapInt64_of_fits _ (by omega) (by omega)
  rw [hw]
  have hgt : ¬ (0 : Int) > (L.length : Int) := by omega
  by_cases hend : (r.products.length : Int) > (L.length : Int)
  · simp [hgt, hend]
  · have he : r.products.length = L.length := by omega
    have hc : (0 : Int) ≤ (r.products.length : Int) := by omega
    simp [hgt, hend, hc, he]

end json

namespace service

/-- A result that the search service returns over the file-backed product store
never has more products than its total. -/
theorem ProductSearchService.Search_length_le_total (TrimSpace ToLower : String → String)
    (r : json.ProductRepository) (s : ProductSearchService) (query : String)
    (limit offset : Int) (products : List model.Product) (total : Int) (err : GoError)
    (hrepo : s.productRepo = r.toPort ToLower)
    (hlen : (r.products.length : Int) < 9223372036854775808)
    (h : s.Search TrimSpace ToLower query limit offset = Run.done (products, total, err)) :
    (products.length : Int) ≤ total := by
  unfold ProductSearchService.Search at h
  by_cases hq : TrimSpace query = ""
  · simp only [hq, if_true, Run.done.injEq, Prod.mk.injEq] at h
    rw [← h.1, ← h.2.1]; simp
  · have hc : s.productRepo.Count (ToLower (TrimSpace query))
        = (((spec.matchesOf ToLower r.products (ToLower (TrimSpace query))).length : Int),
            none) := by
      rw [hrepo]
      exact json.ProductRepository.Count_eq_length ToLower r _ hlen
    simp only [hq, if_false, hc] at h
    by_cases h0 : ((spec.matchesOf ToLower r.products (ToLower (TrimSpace query))).length : Int) = 0
    · simp only [h0, if_true, Run.done.injEq, Prod.mk.injEq] at h
      rw [← h.1, ← h.2.1]; simp
    · simp only [h0, if_false] at h
      have hsearch : s.productRepo.Search (ToLower (TrimSpace query)) limit offset
          = r.Search ToLower (ToLower (TrimSpace query)) limit offset := by rw [hrepo]; rfl
      rw [hsearch] at h
      cases hs : r.Search ToLower (ToLower (TrimSpace query)) limit offset with
      | panicked => rw [hs] at h; simp at h
      | done v =>
        obtain ⟨ps, e⟩ := v
        rw [hs] at h
        cases e with
        | some e' =>
          simp only [Run.done.injEq, Prod.mk.injEq] at h
          rw [← h.1, ← h.2.1]; simp
        | none =>
          simp only [Run.done.injEq, Prod.mk.injEq] at h
          rw [← h.1, ← h.2.1]
          exact_mod_cast json.ProductRepository.Search_length_le ToLower r _ limit offset ps none hs

/-- C19: for every product file (of a length that fits a Go slice) and keyword,
`Count` returns, with a nil error, the number of products whose title,
description, category or brand contains the keyword case-insensitively; that is
the length of the unpaginated list of matches, which `Search` returns whole
when asked for everything from offset 0; hence every result that
`ProductSearchService.Search` returns over that store, whatever the query,
limit and offset, has at most as many products as the total it reports, and for
a limit and an offset in the range the handler enforces it does return one. -/
theorem C19_count_is_length_of_matches (TrimSpace ToLower : String → String)
    (r : json.ProductRepository) (s : ProductSearchService) (keyword query : String)
    (limit offset : Int)
    (hrepo : s.productRepo = r.toPort ToLower)
    (hlen : (r.products.length : Int) + 50 < 9223372036854775808)
    (h0 : 0 ≤ offset) (hoff : offset < 9223372036854775808)
    (h1 : 1 ≤ limit) (h50 : limit ≤ 50) :
    r.Count ToLower keyword
        = (((spec.matchesOf ToLower r.products keyword).length : Int), none) ∧
      r.Search ToLower keyword (len r.products) 0
        = Run.done (spec.matchesOf ToLower r.products keyword, none) ∧
      (∀ (limit' offset' : Int) (products : List model.Product) (total : Int) (err : GoError),
        s.Search TrimSpace ToLower query limit' offset' = Run.done (products, total, err) →
        (products.length : Int) ≤ total) ∧
      ∃ (products : List model.Product) (total : Int),
        s.Search TrimSpace ToLower query limit offset = Run.done (products, total, none) ∧
        (products.length : Int) ≤ total := by
  have hlen' : (r.products.length : Int) < 9223372036854775808 := by omega
  have hall : ∀ (limit' offset' : Int) (products : List model.Product) (total : Int)
      (err : GoError),
      s.Search TrimSpace ToLower query limit' offset' = Run.done (products, total, err) →
      (products.length : Int) ≤ total :=
    fun limit' offset' products total err h =>
      ProductSearchService.Search_length_le_total TrimSpace ToLower r s query limit' offset'
        products total err hrepo hlen' h
  refine ⟨json.ProductRepository.Count_eq_length ToLower r keyword hlen',
    json.ProductRepository.Search_all ToLower r keyword hlen', hall, ?_⟩
  have hex : ∃ (products : List model.Product) (total : Int),
      s.Search TrimSpace ToLower query limit offset = Run.done (products, total, none) := by
    unfold ProductSearchService.Search
    by_cases hq : TrimSpace query = ""
    · exact ⟨[], 0, by simp [hq]⟩
    · have hc : s.productRepo.Count (ToLower (TrimSpace query))
          = (((spec.matchesOf ToLower r.products (ToLower (TrimSpace query))).length : Int),
              none) := by
        rw [hrepo]
        exact json.ProductRepository.Count_eq_length ToLower r _ hlen'
      have hsearch : s.productRepo.Search (ToLower (TrimSpace query)) limit offset
          = Run.done (((r.products.filter (fun p => json.ProductRepository.matches ToLower p
              (ToLower (ToLower (TrimSpace query))))).drop offset.toNat).take limit.toNat,
              none) := by
        rw [hrepo]
        exact json.ProductRepository.Search_eq_page ToLower r _ limit offset h0 hoff h1 h50 hlen
      by_cases hz : ((spec.matchesOf ToLower r.products (ToLower (TrimSpace query))).length : Int) = 0
      · exact ⟨[], 0, by simp [hq, hc, hz]⟩
      · refine ⟨((r.products.filter (fun p => json.ProductRepository.matches ToLower p
            (ToLower (ToLower (TrimSpace query))))).drop offset.toNat).take limit.toNat,
          ((spec.matchesOf ToLower r.products (ToLower (TrimSpace query))).length : Int), ?_⟩
        simp only [hq, if_false, hc, hz, hsearch]
  obtain ⟨products, total, h⟩ := hex
  exact ⟨products, total, h, hall limit offset products total none h⟩

/-- C19, at the sample search service: the query ` Phones ` has six matches, of
which the page of limit 4 at offset 0 holds four. -/
theorem C19_count_is_length_of_matches_witness :
    sample.productRepo.Count sample.toLower "phones" = (6, none) ∧
      ∃ (products : List model.Product) (total : Int),
        sample.searchSvc.Search sample.trimSpace sample.toLower " Phones " 4 0
          = Run.done (products, total, none) ∧
        (products.length : Int) ≤ total :=
  ⟨(C19_count_is_length_of_matches sample.trimSpace sample.toLower sample.productRepo
      sample.searchSvc "phones" " Phones " 4 0 rfl (by decide) (by decide) (by decide)
      (by decide) (by decide)).1.trans (by decide),
    (C19_count_is_length_of_matches sample.trimSpace sample.toLower sample.productRepo
      sample.searchSvc "phones" " Phones " 4 0 rfl (by decide) (by decide) (by decide)
      (by decide) (by decide)).2.2.2⟩

end service

/-! ## Free shipping on the two endpoints -/

namespace dto

/-- C20: for every product, the `FreeShipping` flag of its summary in the
response built by `ToProductSearchResponse` equals the `FreeShipping` flag that
`buildShipping` computes for it in the aggregated view, so the two endpoints
agree on whether a product ships free. -/
theorem C20_free_shipping_agrees (s : service.ProductAggregatorService) (query : String)
    (products : List model.Product) (total limit offset : Int) :
    (ToProductSearchResponse query products total limit offset).Results.map
        (fun summary => (summary.ID, summary.FreeShipping))
      = products.map (fun p => (p.ID, (s.buildShipping p).FreeShipping)) := by
  simp [ToProductSearchResponse, service.ProductAggregatorService.buildShipping]

end dto
